import Mathlib

/-!
# Cellular automaton of `game-scratch/conway.go`

A shallow embedding of the stepping engine of `conway.go` and the properties
its specification states about it.

Conventions of the embedding.

* Go `int` values are `Int`.  On an automaton whose grid has `Height` rows of
  `Width` cells no arithmetic of the program that decides a result leaves the
  64-bit range: the neighbour coordinates are `x ± 1`, `y ± 1` and a coordinate
  outside `[0, Width) × [0, Height)` is rejected by the comparisons whether or
  not it wrapped; the glider coordinates are computed only after the guard
  `x < Width - 2`, `y < Height - 2` has passed; and `Width - 2`, `Height - 2`
  stay in range for `Width, Height ≥ 0` (with `Height = 0` the guard returns on
  `y < 1 || y >= Height - 2` alone).
* A Go slice is a `List`; `[][]CellState` is a list of rows.  `Grid` and `Buffer`
  are built by `NewCellularAutomaton` from separately allocated rows and only
  ever exchanged as a whole, so the two fields never share storage and a write
  to one is modelled as a new value of that field.
* A run-time panic (index out of range, `make` with a length that is negative
  or too large, a call through a nil interface) is the result `none`.  The test
  of `make` is the one of `makeslice` in the Go runtime, element size times
  length against the constant `maxAlloc`; the constant and the two element
  sizes are those of the platform and are the parameter `Runtime`.  A machine
  that runs out of memory ends the process with a fatal error, which is not a
  panic; results are stated for a machine that grants every allocation passing
  the test of `make`.
* The pseudorandom source of `math/rand` is a function of the seed and of the
  number of the draw since `rand.Seed`.
* A `*ebiten.Image` is `Option EbitenImage`, `none` being the nil pointer; the
  rendering library is outside the repository and an image is represented by the
  identity of its allocation together with the colour it was filled with.
-/

namespace Conway

/-! ## Data model -/

/-- The constant `cellSize` of the source. -/
def cellSize : Int := 8

/-- A `color.RGBA` value. -/
structure RGBA where
  R : Nat
  G : Nat
  B : Nat
  A : Nat
deriving DecidableEq, Repr

/-- An image allocated by `ebiten.NewImage`: `handle` is the identity of the
allocation, `width` and `height` its size, `fill` the colour given to `Fill`. -/
structure EbitenImage where
  handle : Nat
  width : Int
  height : Int
  fill : RGBA
deriving DecidableEq, Repr

/-- The struct `CellState`; the zero value is `⟨false, none⟩`. -/
structure CellState where
  Alive : Bool
  Image : Option EbitenImage
deriving DecidableEq, Repr

/-- The values an `UpdateStrategy` interface variable takes in this repository:
the nil interface, or a `*GameOfLifeStrategy` (its only implementation). -/
inductive UpdateStrategy where
  | nil
  | GameOfLifeStrategy
deriving DecidableEq, Repr

/-- The struct `CellularAutomaton`. -/
structure CellularAutomaton where
  Width : Int
  Height : Int
  Grid : List (List CellState)
  Buffer : List (List CellState)
  Strategy : UpdateStrategy
  DeadImage : Option EbitenImage
  AliveImage : Option EbitenImage
deriving DecidableEq, Repr

/-- The struct `Game`. -/
structure Game where
  CA : CellularAutomaton
deriving DecidableEq, Repr

/-! ## Slice primitives -/

/-- The slice read `s[i]`; `none` is the index-out-of-range panic. -/
def index {α : Type} (s : List α) (i : Int) : Option α :=
  if 0 ≤ i then s[i.toNat]? else none

/-- The slice write `s[i] = v`; `none` is the index-out-of-range panic. -/
def assign {α : Type} (s : List α) (i : Int) (v : α) : Option (List α) :=
  if 0 ≤ i ∧ i.toNat < s.length then some (s.set i.toNat v) else none

/-- The platform constants that `make` depends on: the constant `maxAlloc` of the
Go runtime, the largest number of bytes of one allocation, and the sizes in
bytes of a `[]CellState` slice header and of a `CellState`. -/
structure Runtime where
  maxAlloc : Nat
  sliceBytes : Nat
  cellBytes : Nat
deriving DecidableEq, Repr

/-- The 64-bit runtime (linux/amd64): `maxAlloc` is `2^48`, a slice header has 24
bytes and a `CellState`, a `bool` and a pointer, has 16. -/
def amd64 : Runtime := ⟨2 ^ 48, 24, 16⟩

/-- The expression `make([]T, n)` for elements of `size` bytes, every element the
zero value `z`.  As `makeslice` does, it panics with `len out of range` when
`n` is negative or `size * n` exceeds `maxAlloc`. -/
def make {α : Type} (rt : Runtime) (size : Nat) (z : α) (n : Int) : Option (List α) :=
  if 0 ≤ n ∧ (size : Int) * n ≤ (rt.maxAlloc : Int) then some (List.replicate n.toNat z)
  else none

/-- The double read `g[y][x]` of a `[][]CellState`. -/
def cellAt (g : List (List CellState)) (x y : Int) : Option CellState := do
  let row ← index g y
  index row x

/-! ## Construction -/

/-- The function `createCellImage`; `handle` is the identity of the image that
`ebiten.NewImage` allocates for this call. -/
def createCellImage (handle : Nat) (alive : Bool) : Option EbitenImage :=
  if alive then
    some ⟨handle, cellSize, cellSize, ⟨0, 0, 0, 255⟩⟩
  else
    some ⟨handle, cellSize, cellSize, ⟨255, 255, 255, 127⟩⟩

/-- The body of the loop `for i := range grid` of `NewCellularAutomaton`: the
row `i` of `grid`, then the row `i` of `buffer`. -/
def allocRow (rt : Runtime) (width : Int)
    (gb : List (List CellState) × List (List CellState)) (i : Nat) :
    Option (List (List CellState) × List (List CellState)) := do
  let row ← make rt rt.cellBytes (CellState.mk false none) width
  let grid ← assign gb.1 i row
  let row ← make rt rt.cellBytes (CellState.mk false none) width
  let buffer ← assign gb.2 i row
  pure (grid, buffer)

/-- The function `NewCellularAutomaton`.  `fresh` is the identity of the next
image allocation. -/
def NewCellularAutomaton (rt : Runtime) (fresh : Nat) (width height : Int)
    (strategy : UpdateStrategy) : Option CellularAutomaton := do
  let grid ← make rt rt.sliceBytes ([] : List CellState) height
  let buffer ← make rt rt.sliceBytes ([] : List CellState) height
  let (grid, buffer) ← (List.range grid.length).foldlM (allocRow rt width) (grid, buffer)
  let aliveImage := createCellImage fresh true
  let deadImage := createCellImage (fresh + 1) false
  pure {
    Width := width
    Height := height
    Grid := grid
    Buffer := buffer
    Strategy := strategy
    AliveImage := aliveImage
    DeadImage := deadImage }

/-! ## The Game of Life rule -/

/-- The condition of line 123,
`nx >= 0 && ny >= 0 && nx < ca.Width && ny < ca.Height && ca.Grid[ny][nx].Alive`:
the grid is read only when the four comparisons hold. -/
def neighborAlive (ca : CellularAutomaton) (nx ny : Int) : Option Bool :=
  if nx ≥ 0 ∧ ny ≥ 0 ∧ nx < ca.Width ∧ ny < ca.Height then
    (cellAt ca.Grid nx ny).map CellState.Alive
  else
    some false

/-- The function `countAliveNeighbors`: `dy` and `dx` run over `-1, 0, 1`. -/
def countAliveNeighbors (ca : CellularAutomaton) (x y : Int) : Option Int :=
  ([-1, 0, 1] : List Int).foldlM (fun alive dy =>
    ([-1, 0, 1] : List Int).foldlM (fun alive dx =>
      if dy = 0 ∧ dx = 0 then
        some alive
      else do
        let nx := x + dx
        let ny := y + dy
        let a ← neighborAlive ca nx ny
        pure (if a then alive + 1 else alive)) alive) (0 : Int)

/-- The method `(*GameOfLifeStrategy).Update`. -/
def GameOfLifeStrategy.Update (ca : CellularAutomaton) (x y : Int) : Option Bool := do
  let aliveNeighbors ← countAliveNeighbors ca x y
  let cell ← cellAt ca.Grid x y
  let currentCellAlive := cell.Alive
  if currentCellAlive && (aliveNeighbors < 2 || aliveNeighbors > 3) then
    pure false
  else if !currentCellAlive && aliveNeighbors == 3 then
    pure true
  else
    pure currentCellAlive

/-- The interface call `ca.Strategy.Update(ca, x, y)`. -/
def UpdateStrategy.Update (s : UpdateStrategy) (ca : CellularAutomaton) (x y : Int) :
    Option Bool :=
  match s with
  | .nil => none
  | .GameOfLifeStrategy => GameOfLifeStrategy.Update ca x y

/-! ## One generation -/

/-- The body of the inner loop of `CellularAutomaton.Update` (lines 80 to 90). -/
def CellularAutomaton.updateCell (ca : CellularAutomaton) (x y : Int) :
    Option CellularAutomaton := do
  let newState ← ca.Strategy.Update ca x y
  let image := if newState then ca.AliveImage else ca.DeadImage
  let row ← index ca.Buffer y
  let row ← assign row x (CellState.mk newState image)
  let buffer ← assign ca.Buffer y row
  pure { ca with Buffer := buffer }

/-- The inner loop `for x := 0; x < ca.Width; x++` for the row `y`. -/
def CellularAutomaton.updateRow (ca : CellularAutomaton) (y : Int) :
    Option CellularAutomaton :=
  (List.range ca.Width.toNat).foldlM (fun ca (x : Nat) => ca.updateCell x y) ca

/-- The method `CellularAutomaton.Update`: both loops, then the exchange of
`Grid` and `Buffer`. -/
def CellularAutomaton.Update (ca : CellularAutomaton) : Option CellularAutomaton := do
  let ca ← (List.range ca.Height.toNat).foldlM (fun ca (y : Nat) => ca.updateRow y) ca
  pure { ca with Grid := ca.Buffer, Buffer := ca.Grid }

/-- The automaton after `n` successive calls of `CellularAutomaton.Update`. -/
def CellularAutomaton.UpdateN : Nat → CellularAutomaton → Option CellularAutomaton
  | 0, ca => some ca
  | n + 1, ca => do
    let ca ← ca.Update
    CellularAutomaton.UpdateN n ca

/-! ## Pattern placement -/

/-- The two assignments of lines 192 and 193 for one coordinate pair. -/
def Game.markAlive (g : Game) (coord : Int × Int) : Option Game := do
  let row ← index g.CA.Grid coord.2
  let cell ← index row coord.1
  let row ← assign row coord.1 { cell with Alive := true }
  let grid ← assign g.CA.Grid coord.2 row
  let g : Game := { g with CA := { g.CA with Grid := grid } }
  let row ← index g.CA.Grid coord.2
  let cell ← index row coord.1
  let row ← assign row coord.1 { cell with Image := g.CA.AliveImage }
  let grid ← assign g.CA.Grid coord.2 row
  pure { g with CA := { g.CA with Grid := grid } }

/-- The slice `gliderCoords` of `addGlider`, each `{a, b}` as the pair `(a, b)`. -/
def gliderCoords (x y : Int) : List (Int × Int) :=
  [(x, y), (x, y + 1), (x, y + 2), (x + 1, y + 2), (x + 2, y + 1)]

/-- The method `Game.addGlider`. -/
def Game.addGlider (g : Game) (x y : Int) : Option Game :=
  if x < 1 ∨ x ≥ g.CA.Width - 2 ∨ y < 1 ∨ y ≥ g.CA.Height - 2 then
    some g
  else
    (gliderCoords x y).foldlM (fun g coord => g.markAlive coord) g

/-! ## Random initialisation -/

/-- The body of the inner loop of `InitializeGridRandomly` (lines 136 to 140).
The pseudorandom source of `math/rand` is the function `intn`: `intn seed k` is
the value of the `k`-th call `rand.Intn(2)` after `rand.Seed(seed)`; the state
carries the number `k` of draws made so far, which is also the number of images
allocated so far, `fresh` being the identity of the first of them. -/
def CellularAutomaton.randomCell (intn : Int → Nat → Int) (fresh : Nat) (seed : Int)
    (st : CellularAutomaton × Nat) (x y : Int) : Option (CellularAutomaton × Nat) := do
  let alive := intn seed st.2 == 1
  let row ← index st.1.Grid y
  let row ← assign row x (CellState.mk alive (createCellImage (fresh + st.2) alive))
  let grid ← assign st.1.Grid y row
  pure ({ st.1 with Grid := grid }, st.2 + 1)

/-- The inner loop `for x := 0; x < ca.Width; x++` of `InitializeGridRandomly`
for the row `y`. -/
def CellularAutomaton.randomRow (intn : Int → Nat → Int) (fresh : Nat) (seed : Int)
    (st : CellularAutomaton × Nat) (y : Int) : Option (CellularAutomaton × Nat) :=
  (List.range st.1.Width.toNat).foldlM
    (fun st (x : Nat) => CellularAutomaton.randomCell intn fresh seed st x y) st

/-- The method `CellularAutomaton.InitializeGridRandomly`: `rand.Seed(seed)`
restarts the draws at number `0`. -/
def CellularAutomaton.InitializeGridRandomly (intn : Int → Nat → Int) (fresh : Nat)
    (ca : CellularAutomaton) (seed : Int) : Option CellularAutomaton := do
  let st ← (List.range ca.Height.toNat).foldlM
    (fun st (y : Nat) => CellularAutomaton.randomRow intn fresh seed st y) (ca, 0)
  pure st.1

/-! ## Vocabulary of the properties -/

/-- The grid `g` has `H` rows of `W` cells each. -/
def Shaped (g : List (List CellState)) (W H : Int) : Prop :=
  (g.length : Int) = H ∧ ∀ row ∈ g, (row.length : Int) = W

instance (g : List (List CellState)) (W H : Int) : Decidable (Shaped g W H) := by
  unfold Shaped; infer_instance

/-- The shape invariant of an automaton: `Grid` and `Buffer` both have `Height`
rows of `Width` cells. -/
def WellShaped (ca : CellularAutomaton) : Prop :=
  Shaped ca.Grid ca.Width ca.Height ∧ Shaped ca.Buffer ca.Width ca.Height

instance (ca : CellularAutomaton) : Decidable (WellShaped ca) := by
  unfold WellShaped; infer_instance

/-- The position `(x, y)` lies in `[0, W) × [0, H)`. -/
def InBounds (W H x y : Int) : Prop :=
  0 ≤ x ∧ x < W ∧ 0 ≤ y ∧ y < H

instance (W H x y : Int) : Decidable (InBounds W H x y) := by
  unfold InBounds; infer_instance

/-- The cell `(x, y)` of `g` exists and is alive; a position outside `g` is not
alive. -/
def aliveAt (g : List (List CellState)) (x y : Int) : Bool :=
  match cellAt g x y with
  | some c => c.Alive
  | none => false

/-- The number `1` for an alive cell and `0` otherwise. -/
def aliveNum (g : List (List CellState)) (x y : Int) : Int :=
  if aliveAt g x y then 1 else 0

/-- The alive cells among the eight positions around `(x, y)`, in the order in
which `countAliveNeighbors` visits them. -/
def neighborSum (g : List (List CellState)) (x y : Int) : Int :=
  aliveNum g (x + -1) (y + -1) + aliveNum g (x + 0) (y + -1) + aliveNum g (x + 1) (y + -1)
    + aliveNum g (x + -1) (y + 0) + aliveNum g (x + 1) (y + 0)
    + aliveNum g (x + -1) (y + 1) + aliveNum g (x + 0) (y + 1) + aliveNum g (x + 1) (y + 1)

/-- The transition law in the words of the specification: a living cell
survives iff it has exactly 2 or 3 living neighbours, a dead cell becomes alive
iff it has exactly 3, every other cell is dead. -/
def lifeRule (alive : Bool) (n : Int) : Bool :=
  decide ((alive = true ∧ (n = 2 ∨ n = 3)) ∨ (alive = false ∧ n = 3))

/-- The next state of the cell `(x, y)` of `g` under the transition law. -/
def nextAlive (g : List (List CellState)) (x y : Int) : Bool :=
  lifeRule (aliveAt g x y) (neighborSum g x y)

/-- The cell that one generation writes at `(x, y)`. -/
def nextCell (ca : CellularAutomaton) (x y : Int) : CellState :=
  ⟨nextAlive ca.Grid x y, if nextAlive ca.Grid x y then ca.AliveImage else ca.DeadImage⟩

/-- The alive cells of `g` are exactly the positions listed in `S`. -/
def AliveExactly (g : List (List CellState)) (S : List (Int × Int)) : Prop :=
  ∀ x y : Int, aliveAt g x y = true ↔ (x, y) ∈ S

/-- The number `1` when `(x, y)` is listed in `S` and `0` otherwise. -/
def setNum (S : List (Int × Int)) (x y : Int) : Int :=
  if (x, y) ∈ S then 1 else 0

/-- The number of positions around `(x, y)` that are listed in `S`. -/
def setSum (S : List (Int × Int)) (x y : Int) : Int :=
  setNum S (x + -1) (y + -1) + setNum S (x + 0) (y + -1) + setNum S (x + 1) (y + -1)
    + setNum S (x + -1) (y + 0) + setNum S (x + 1) (y + 0)
    + setNum S (x + -1) (y + 1) + setNum S (x + 0) (y + 1) + setNum S (x + 1) (y + 1)

/-- The transition law for the position `(x, y)` when the alive cells are the
positions listed in `S`. -/
def setNext (S : List (Int × Int)) (x y : Int) : Prop :=
  ((x, y) ∈ S ∧ (setSum S x y = 2 ∨ setSum S x y = 3)) ∨ ((x, y) ∉ S ∧ setSum S x y = 3)

/-- The offsets `(dx, dy)` with `dx, dy ∈ {-1, 0, 1}` and `(dx, dy) ≠ (0, 0)`. -/
def mooreOffsets : List (Int × Int) :=
  (List.product ([-1, 0, 1] : List Int) ([-1, 0, 1] : List Int)).filter
    (fun d => decide (d ≠ (0, 0)))

/-- The position `p` lies inside `[0, Width) × [0, Height)` and is alive in
`Grid`. -/
def insideAlive (ca : CellularAutomaton) (p : Int × Int) : Bool :=
  decide (InBounds ca.Width ca.Height p.1 p.2) && aliveAt ca.Grid p.1 p.2

/-- The neighbour count in the words of the specification: the number of
positions `(x + dx, y + dy)` of the Moore neighbourhood that lie inside the grid
and are alive. -/
def mooreCount (ca : CellularAutomaton) (x y : Int) : Nat :=
  (mooreOffsets.map fun d => (x + d.1, y + d.2)).countP (insideAlive ca)

/-- A dead cell without image, the zero value of `CellState`. -/
def deadCell : CellState := ⟨false, none⟩

/-- An alive cell without image. -/
def liveCell : CellState := ⟨true, none⟩

/-- A 4 by 4 automaton whose alive cells are the block with corner `(1, 1)`; its
buffer holds alive cells only. -/
def blockCA : CellularAutomaton where
  Width := 4
  Height := 4
  Grid := [[deadCell, deadCell, deadCell, deadCell], [deadCell, liveCell, liveCell, deadCell],
    [deadCell, liveCell, liveCell, deadCell], [deadCell, deadCell, deadCell, deadCell]]
  Buffer := List.replicate 4 (List.replicate 4 liveCell)
  Strategy := UpdateStrategy.GameOfLifeStrategy
  DeadImage := none
  AliveImage := none

/-- Every cell of the grid `g` is dead. -/
def AllDead (g : List (List CellState)) : Prop :=
  ∀ row ∈ g, ∀ c ∈ row, c.Alive = false

instance (g : List (List CellState)) : Decidable (AllDead g) := by
  unfold AllDead; infer_instance

/-- The four cells of the 2 by 2 block whose corner of least coordinates is
`(x, y)`. -/
def blockCells (x y : Int) : List (Int × Int) :=
  [(x, y), (x + 1, y), (x, y + 1), (x + 1, y + 1)]

/-- The three cells of the blinker of the specification, `(1, 0)`, `(1, 1)`,
`(1, 2)`. -/
def blinkerCells : List (Int × Int) :=
  [(1, 0), (1, 1), (1, 2)]

/-- The perpendicular line through the middle cell `(1, 1)`. -/
def blinkerTurned : List (Int × Int) :=
  [(0, 1), (1, 1), (2, 1)]

/-- A 2 by 2 automaton all of whose cells are alive: the block fills the grid. -/
def fullBlockCA : CellularAutomaton where
  Width := 2
  Height := 2
  Grid := [[liveCell, liveCell], [liveCell, liveCell]]
  Buffer := [[deadCell, liveCell], [liveCell, deadCell]]
  Strategy := UpdateStrategy.GameOfLifeStrategy
  DeadImage := none
  AliveImage := none

/-- A 5 by 5 automaton whose alive cells are `(1, 0)`, `(1, 1)`, `(1, 2)`. -/
def blinkerCA : CellularAutomaton where
  Width := 5
  Height := 5
  Grid := [[deadCell, liveCell, deadCell, deadCell, deadCell],
    [deadCell, liveCell, deadCell, deadCell, deadCell],
    [deadCell, liveCell, deadCell, deadCell, deadCell],
    List.replicate 5 deadCell, List.replicate 5 deadCell]
  Buffer := List.replicate 5 (List.replicate 5 liveCell)
  Strategy := UpdateStrategy.GameOfLifeStrategy
  DeadImage := none
  AliveImage := none

/-- A 3 by 2 automaton with a dead grid and a buffer of alive cells. -/
def deadCA : CellularAutomaton where
  Width := 3
  Height := 2
  Grid := List.replicate 2 (List.replicate 3 deadCell)
  Buffer := List.replicate 2 (List.replicate 3 liveCell)
  Strategy := UpdateStrategy.GameOfLifeStrategy
  DeadImage := none
  AliveImage := none

instance (S : List (Int × Int)) (x y : Int) : Decidable (setNext S x y) := by
  unfold setNext; infer_instance

/-- A game on a 10 by 10 automaton of dead cells, as `NewCellularAutomaton`
builds it. -/
def emptyGame : Game where
  CA := {
    Width := 10
    Height := 10
    Grid := List.replicate 10 (List.replicate 10 deadCell)
    Buffer := List.replicate 10 (List.replicate 10 deadCell)
    Strategy := UpdateStrategy.GameOfLifeStrategy
    DeadImage := createCellImage 1 false
    AliveImage := createCellImage 0 true }

/-- The run of the glider test of the specification on the 64-bit runtime: a new
10 by 10 automaton,
`addGlider(2, 2)`, then four calls of `CellularAutomaton.Update`. -/
def gliderRun : Option CellularAutomaton := do
  let ca ← NewCellularAutomaton amd64 0 10 10 UpdateStrategy.GameOfLifeStrategy
  let g ← Game.addGlider (Game.mk ca) 2 2
  g.CA.UpdateN 4

/-- The coordinates `(x, y)` of the calls `ca.Strategy.Update(ca, x, y)` that the
two loops of `CellularAutomaton.Update` make, in the order of the calls. -/
def CellularAutomaton.updateCalls (ca : CellularAutomaton) : List (Int × Int) :=
  (List.range ca.Height.toNat).flatMap fun (y : Nat) =>
    (List.range ca.Width.toNat).map fun (x : Nat) => ((x : Int), (y : Int))

/-- The exchange of `Grid` and `Buffer` that ends `CellularAutomaton.Update`. -/
def CellularAutomaton.swap (ca : CellularAutomaton) : CellularAutomaton :=
  { ca with Grid := ca.Buffer, Buffer := ca.Grid }

/-- Every cell of `g` carries the image of its state: `aliveImage` when alive
and `deadImage` when dead. -/
def ImagesMatch (g : List (List CellState)) (aliveImage deadImage : Option EbitenImage) :
    Prop :=
  ∀ row ∈ g, ∀ c ∈ row, c.Image = if c.Alive then aliveImage else deadImage

instance (g : List (List CellState)) (aliveImage deadImage : Option EbitenImage) :
    Decidable (ImagesMatch g aliveImage deadImage) := by
  unfold ImagesMatch; infer_instance

/-- No cell of `g` has the nil image. -/
def NoMissingImage (g : List (List CellState)) : Prop :=
  ∀ row ∈ g, ∀ c ∈ row, c.Image ≠ none

instance (g : List (List CellState)) : Decidable (NoMissingImage g) := by
  unfold NoMissingImage; infer_instance

/-- The horizontally mirrored grid: every row reversed, so that the cell
`(x, y)` of the mirror is the cell `(Width - 1 - x, y)` of `g`. -/
def mirrorGrid (g : List (List CellState)) : List (List CellState) :=
  g.map List.reverse

/-- The automaton with its `Grid` mirrored horizontally. -/
def CellularAutomaton.mirror (ca : CellularAutomaton) : CellularAutomaton :=
  { ca with Grid := mirrorGrid ca.Grid }

/-- The positions of `S` moved by the offset `d`. -/
def shift (d : Int × Int) (S : List (Int × Int)) : List (Int × Int) :=
  S.map fun p => (p.1 + d.1, p.2 + d.2)

/-- A pseudorandom source for the examples: the draws alternate `1, 0, 1, 0, …`
whatever the seed. -/
def sampleIntn (_seed : Int) (k : Nat) : Int :=
  if k % 2 = 0 then 1 else 0

/-- The cell that `InitializeGridRandomly` writes with the draw number `k`. -/
def drawnCell (intn : Int → Nat → Int) (fresh : Nat) (seed : Int) (k : Nat) : CellState :=
  CellState.mk (intn seed k == 1) (createCellImage (fresh + k) (intn seed k == 1))

/-! ## Slices -/

theorem index_eq_getElem? {α : Type} (s : List α) (i : Int) (h : 0 ≤ i) :
    index s i = s[i.toNat]? := by
  simp [index, h]

theorem index_neg {α : Type} (s : List α) (i : Int) (h : i < 0) : index s i = none := by
  have : ¬ 0 ≤ i := by omega
  simp [index, this]

theorem index_ge {α : Type} (s : List α) (i : Int) (h : (s.length : Int) ≤ i) :
    index s i = none := by
  have h0 : 0 ≤ i := by omega
  rw [index_eq_getElem? s i h0, List.getElem?_eq_none_iff]
  omega

theorem index_some {α : Type} (s : List α) (i : Int) (h0 : 0 ≤ i) (h1 : i < s.length) :
    ∃ v, index s i = some v ∧ v ∈ s := by
  have hlt : i.toNat < s.length := by omega
  refine ⟨s[i.toNat], ?_, List.getElem_mem hlt⟩
  rw [index_eq_getElem? s i h0, List.getElem?_eq_getElem hlt]

theorem index_bounds {α : Type} (s : List α) (i : Int) (v : α) (h : index s i = some v) :
    0 ≤ i ∧ i < s.length := by
  by_cases h0 : 0 ≤ i
  · refine ⟨h0, ?_⟩
    by_contra hge
    rw [index_ge s i (by omega)] at h
    cases h
  · rw [index_neg s i (by omega)] at h
    cases h

theorem assign_eq {α : Type} (s : List α) (i : Int) (v : α) (h0 : 0 ≤ i)
    (h1 : i < s.length) : assign s i v = some (s.set i.toNat v) := by
  have hlt : i.toNat < s.length := by omega
  simp [assign, h0, hlt]

theorem index_set {α : Type} (s : List α) (i j : Int) (v : α) (h0 : 0 ≤ i)
    (h1 : i < s.length) :
    index (s.set i.toNat v) j = if j = i then some v else index s j := by
  by_cases hj : 0 ≤ j
  · rw [index_eq_getElem? _ j hj, index_eq_getElem? _ j hj, List.getElem?_set]
    have hlt : i.toNat < s.length := by omega
    by_cases hij : j = i
    · subst hij
      simp [hlt]
    · have : i.toNat ≠ j.toNat := by omega
      simp [this, hij]
  · have hne : j ≠ i := by omega
    rw [index_neg _ j (by omega), index_neg _ j (by omega), if_neg hne]

/-! ## Shapes -/

theorem shaped_set {g : List (List CellState)} {W H : Int} (h : Shaped g W H) (i : Nat)
    (row : List CellState) (hrow : (row.length : Int) = W) : Shaped (g.set i row) W H := by
  refine ⟨by simpa using h.1, ?_⟩
  intro r hr
  rcases List.mem_or_eq_of_mem_set hr with hmem | heq
  · exact h.2 r hmem
  · rw [heq]; exact hrow

theorem cellAt_outside {g : List (List CellState)} {W H : Int} (h : Shaped g W H) (x y : Int)
    (hout : ¬ InBounds W H x y) : cellAt g x y = none := by
  unfold cellAt
  by_cases hy : 0 ≤ y ∧ y < H
  · obtain ⟨row, hrow, hmem⟩ := index_some g y hy.1 (by rw [h.1]; exact hy.2)
    have hlen := h.2 row hmem
    have hx : x < 0 ∨ (row.length : Int) ≤ x := by
      unfold InBounds at hout
      omega
    rcases hx with hx | hx
    · simp [hrow, index_neg row x hx]
    · simp [hrow, index_ge row x hx]
  · have hy2 : y < 0 ∨ (g.length : Int) ≤ y := by
      rw [h.1]; omega
    rcases hy2 with hy2 | hy2
    · simp [index_neg g y hy2]
    · simp [index_ge g y hy2]

theorem cellAt_inside {g : List (List CellState)} {W H : Int} (h : Shaped g W H) (x y : Int)
    (hin : InBounds W H x y) : ∃ c, cellAt g x y = some c := by
  obtain ⟨hx0, hx1, hy0, hy1⟩ := hin
  obtain ⟨row, hrow, hmem⟩ := index_some g y hy0 (by rw [h.1]; exact hy1)
  obtain ⟨c, hc, _⟩ := index_some row x hx0 (by rw [h.2 row hmem]; exact hx1)
  exact ⟨c, by simp [cellAt, hrow, hc]⟩

theorem aliveAt_outside {g : List (List CellState)} {W H : Int} (h : Shaped g W H) (x y : Int)
    (hout : ¬ InBounds W H x y) : aliveAt g x y = false := by
  simp [aliveAt, cellAt_outside h x y hout]

/-- Writing the cell `(x, y)` of a shaped grid, as the statement
`g[y][x] = c` does: the write succeeds, keeps the shape and changes the cell
`(x, y)` only. -/
theorem write_spec {g : List (List CellState)} {W H : Int} (h : Shaped g W H) (x y : Int)
    (hin : InBounds W H x y) (c : CellState) :
    ∃ row g2, index g y = some row ∧ assign row x c = some (row.set x.toNat c) ∧
      assign g y (row.set x.toNat c) = some g2 ∧ Shaped g2 W H ∧
      ∀ i j, cellAt g2 i j = if i = x ∧ j = y then some c else cellAt g i j := by
  obtain ⟨hx0, hx1, hy0, hy1⟩ := hin
  have hyl : y < g.length := by rw [h.1]; exact hy1
  obtain ⟨row, hrow, hmem⟩ := index_some g y hy0 hyl
  have hxl : x < row.length := by rw [h.2 row hmem]; exact hx1
  refine ⟨row, g.set y.toNat (row.set x.toNat c), hrow, assign_eq row x c hx0 hxl,
    assign_eq g y _ hy0 hyl, shaped_set h _ _ (by simpa using h.2 row hmem), ?_⟩
  intro i j
  unfold cellAt
  rw [index_set g y j _ hy0 hyl]
  by_cases hj : j = y
  · subst hj
    simp only [if_true, and_true, hrow, Option.bind_eq_bind, Option.some_bind]
    exact index_set row x i c hx0 hxl
  · simp [hj]

/-! ## The rule on a shaped grid -/

theorem neighborAlive_eq {ca : CellularAutomaton} (h : Shaped ca.Grid ca.Width ca.Height)
    (nx ny : Int) : neighborAlive ca nx ny = some (aliveAt ca.Grid nx ny) := by
  unfold neighborAlive
  by_cases hin : InBounds ca.Width ca.Height nx ny
  · have hc : nx ≥ 0 ∧ ny ≥ 0 ∧ nx < ca.Width ∧ ny < ca.Height :=
      ⟨hin.1, hin.2.2.1, hin.2.1, hin.2.2.2⟩
    obtain ⟨c, hcell⟩ := cellAt_inside h nx ny hin
    simp [hc, hcell, aliveAt]
  · have hc : ¬ (nx ≥ 0 ∧ ny ≥ 0 ∧ nx < ca.Width ∧ ny < ca.Height) := by
      intro hc
      exact hin ⟨hc.1, hc.2.2.1, hc.2.1, hc.2.2.2⟩
    rw [if_neg hc, aliveAt_outside h nx ny hin]

theorem count_step (a : Bool) (n : Int) :
    (if a = true then n + 1 else n) = n + (if a = true then 1 else 0) := by
  cases a <;> simp

theorem countAliveNeighbors_eq {ca : CellularAutomaton}
    (h : Shaped ca.Grid ca.Width ca.Height) (x y : Int) :
    countAliveNeighbors ca x y = some (neighborSum ca.Grid x y) := by
  simp [countAliveNeighbors, List.foldlM, neighborAlive_eq h, count_step, neighborSum,
    aliveNum]

theorem rule_eq (a : Bool) (n : Int) :
    (if (a && (decide (n < 2) || decide (n > 3))) = true then false
      else if (!a && n == 3) = true then true else a) = lifeRule a n := by
  unfold lifeRule
  cases a
  · by_cases h3 : n = 3 <;> simp [h3]
  · by_cases h2 : n < 2
    · have : ¬ n = 2 := by omega
      have : ¬ n = 3 := by omega
      simp [*]
    · by_cases h3 : n > 3
      · have : ¬ n = 2 := by omega
        have : ¬ n = 3 := by omega
        simp [*]
      · have : n = 2 ∨ n = 3 := by omega
        simp [*]

theorem gameOfLife_update_eq {ca : CellularAutomaton}
    (h : Shaped ca.Grid ca.Width ca.Height) (x y : Int)
    (hin : InBounds ca.Width ca.Height x y) :
    GameOfLifeStrategy.Update ca x y = some (nextAlive ca.Grid x y) := by
  obtain ⟨c, hc⟩ := cellAt_inside h x y hin
  have ha : aliveAt ca.Grid x y = c.Alive := by simp [aliveAt, hc]
  have hr := rule_eq c.Alive (neighborSum ca.Grid x y)
  unfold GameOfLifeStrategy.Update nextAlive
  rw [countAliveNeighbors_eq h, ha, ← hr]
  simp only [hc, Option.bind_eq_bind, Option.some_bind, pure]
  split_ifs <;> rfl

/-! ## The two loops of `CellularAutomaton.Update` -/

theorem shaped_width_nonneg {g : List (List CellState)} {W H : Int} (h : Shaped g W H)
    (hH : 0 < H) : 0 ≤ W := by
  obtain ⟨row, _, hmem⟩ := index_some g 0 (le_refl 0) (by rw [h.1]; exact hH)
  have := h.2 row hmem
  omega

theorem updateCell_spec (ca : CellularAutomaton)
    (hs : ca.Strategy = UpdateStrategy.GameOfLifeStrategy)
    (hg : Shaped ca.Grid ca.Width ca.Height) (b : List (List CellState))
    (hb : Shaped b ca.Width ca.Height) (x y : Int) (hin : InBounds ca.Width ca.Height x y) :
    ∃ b2, CellularAutomaton.updateCell { ca with Buffer := b } x y
        = some { ca with Buffer := b2 } ∧ Shaped b2 ca.Width ca.Height ∧
      ∀ i j, cellAt b2 i j = if i = x ∧ j = y then some (nextCell ca x y) else cellAt b i j := by
  obtain ⟨row, b2, hrow, hset, hb2, hshape, hcell⟩ := write_spec hb x y hin (nextCell ca x y)
  refine ⟨b2, ?_, hshape, hcell⟩
  have hu : GameOfLifeStrategy.Update { ca with Buffer := b } x y
      = some (nextAlive ca.Grid x y) :=
    @gameOfLife_update_eq { ca with Buffer := b } hg x y hin
  unfold nextCell at hset hb2
  simp only [hs] at hu
  simp only [CellularAutomaton.updateCell, hs, UpdateStrategy.Update, hu, hrow, hset, hb2,
    Option.bind_eq_bind, Option.some_bind, pure]

theorem updateRow_loop (ca : CellularAutomaton)
    (hs : ca.Strategy = UpdateStrategy.GameOfLifeStrategy)
    (hg : Shaped ca.Grid ca.Width ca.Height) (y : Int) (hy0 : 0 ≤ y) (hy1 : y < ca.Height) :
    ∀ (k : Nat), (k : Int) ≤ ca.Width → ∀ b, Shaped b ca.Width ca.Height →
      ∃ b2, (List.range k).foldlM (fun c (x : Nat) => CellularAutomaton.updateCell c x y)
          { ca with Buffer := b } = some { ca with Buffer := b2 } ∧
        Shaped b2 ca.Width ca.Height ∧
        ∀ i j, cellAt b2 i j
          = if 0 ≤ i ∧ i < k ∧ j = y then some (nextCell ca i y) else cellAt b i j := by
  intro k
  induction k with
  | zero =>
    intro _ b hb
    refine ⟨b, by simp [pure], hb, ?_⟩
    intro i j
    have : ¬ (0 ≤ i ∧ i < ((0 : Nat) : Int) ∧ j = y) := by omega
    rw [if_neg this]
  | succ k ih =>
    intro hk b hb
    obtain ⟨b1, hrun, hb1, hcell1⟩ := ih (by omega) b hb
    obtain ⟨b2, hstep, hb2, hcell2⟩ :=
      updateCell_spec ca hs hg b1 hb1 (k : Int) y ⟨by omega, by omega, hy0, hy1⟩
    refine ⟨b2, ?_, hb2, ?_⟩
    · rw [List.range_succ, List.foldlM_append, hrun]
      simp only [Option.bind_eq_bind, Option.some_bind, List.foldlM_cons, List.foldlM_nil,
        hstep, pure]
    · intro i j
      rw [hcell2, hcell1]
      by_cases h1 : i = (k : Int) ∧ j = y
      · obtain ⟨hi, hj⟩ := h1
        subst hi hj
        have : 0 ≤ (k : Int) ∧ (k : Int) < ((k + 1 : Nat) : Int) ∧ j = j := by omega
        simp [this]
      · rw [if_neg h1]
        by_cases h2 : 0 ≤ i ∧ i < (k : Int) ∧ j = y
        · have : 0 ≤ i ∧ i < ((k + 1 : Nat) : Int) ∧ j = y := by omega
          rw [if_pos h2, if_pos this]
        · have : ¬ (0 ≤ i ∧ i < ((k + 1 : Nat) : Int) ∧ j = y) := by omega
          rw [if_neg h2, if_neg this]

theorem updateRow_spec (ca : CellularAutomaton)
    (hs : ca.Strategy = UpdateStrategy.GameOfLifeStrategy)
    (hg : Shaped ca.Grid ca.Width ca.Height) (y : Int) (hy0 : 0 ≤ y) (hy1 : y < ca.Height)
    (b : List (List CellState)) (hb : Shaped b ca.Width ca.Height) :
    ∃ b2, CellularAutomaton.updateRow { ca with Buffer := b } y
        = some { ca with Buffer := b2 } ∧ Shaped b2 ca.Width ca.Height ∧
      ∀ i j, cellAt b2 i j
        = if 0 ≤ i ∧ i < ca.Width ∧ j = y then some (nextCell ca i y) else cellAt b i j := by
  have hW : 0 ≤ ca.Width := shaped_width_nonneg hg (by omega)
  obtain ⟨b2, hrun, hb2, hcell⟩ :=
    updateRow_loop ca hs hg y hy0 hy1 ca.Width.toNat (by omega) b hb
  refine ⟨b2, hrun, hb2, ?_⟩
  intro i j
  rw [hcell, Int.toNat_of_nonneg hW]

theorem update_loop (ca : CellularAutomaton)
    (hs : ca.Strategy = UpdateStrategy.GameOfLifeStrategy)
    (hg : Shaped ca.Grid ca.Width ca.Height) :
    ∀ (m : Nat), (m : Int) ≤ ca.Height → ∀ b, Shaped b ca.Width ca.Height →
      ∃ b2, (List.range m).foldlM (fun c (y : Nat) => CellularAutomaton.updateRow c y)
          { ca with Buffer := b } = some { ca with Buffer := b2 } ∧
        Shaped b2 ca.Width ca.Height ∧
        ∀ i j, cellAt b2 i j
          = if 0 ≤ i ∧ i < ca.Width ∧ 0 ≤ j ∧ j < m then some (nextCell ca i j)
            else cellAt b i j := by
  intro m
  induction m with
  | zero =>
    intro _ b hb
    refine ⟨b, by simp [pure], hb, ?_⟩
    intro i j
    have : ¬ (0 ≤ i ∧ i < ca.Width ∧ 0 ≤ j ∧ j < ((0 : Nat) : Int)) := by omega
    rw [if_neg this]
  | succ m ih =>
    intro hm b hb
    obtain ⟨b1, hrun, hb1, hcell1⟩ := ih (by omega) b hb
    obtain ⟨b2, hstep, hb2, hcell2⟩ :=
      updateRow_spec ca hs hg (m : Int) (by omega) (by omega) b1 hb1
    refine ⟨b2, ?_, hb2, ?_⟩
    · rw [List.range_succ, List.foldlM_append, hrun]
      simp only [Option.bind_eq_bind, Option.some_bind, List.foldlM_cons, List.foldlM_nil,
        hstep, pure]
    · intro i j
      rw [hcell2, hcell1]
      by_cases h1 : 0 ≤ i ∧ i < ca.Width ∧ j = (m : Int)
      · have : 0 ≤ i ∧ i < ca.Width ∧ 0 ≤ j ∧ j < ((m + 1 : Nat) : Int) := by omega
        rw [if_pos h1, if_pos this, h1.2.2]
      · rw [if_neg h1]
        by_cases h2 : 0 ≤ i ∧ i < ca.Width ∧ 0 ≤ j ∧ j < (m : Int)
        · have : 0 ≤ i ∧ i < ca.Width ∧ 0 ≤ j ∧ j < ((m + 1 : Nat) : Int) := by omega
          rw [if_pos h2, if_pos this]
        · have : ¬ (0 ≤ i ∧ i < ca.Width ∧ 0 ≤ j ∧ j < ((m + 1 : Nat) : Int)) := by omega
          rw [if_neg h2, if_neg this]

/-- One generation on a well-shaped automaton using the Game of Life rule: the
call returns, `Buffer` becomes the old `Grid`, and the new `Grid` is a grid of
the same shape holding at every position the cell the rule gives on the old
`Grid`. -/
theorem Update_spec (ca : CellularAutomaton) (hw : WellShaped ca)
    (hs : ca.Strategy = UpdateStrategy.GameOfLifeStrategy) :
    ∃ g2, ca.Update = some { ca with Grid := g2, Buffer := ca.Grid } ∧
      Shaped g2 ca.Width ca.Height ∧
      ∀ x y, InBounds ca.Width ca.Height x y → cellAt g2 x y = some (nextCell ca x y) := by
  have hH : 0 ≤ ca.Height := by
    have := hw.1.1
    omega
  obtain ⟨g2, hrun, hg2, hcell⟩ :=
    update_loop ca hs hw.1 ca.Height.toNat (by omega) ca.Buffer hw.2
  refine ⟨g2, ?_, hg2, ?_⟩
  · unfold CellularAutomaton.Update
    have hca : ({ ca with Buffer := ca.Buffer } : CellularAutomaton) = ca := rfl
    rw [hca] at hrun
    rw [hrun]
    rfl
  · intro x y hin
    rw [hcell, Int.toNat_of_nonneg hH]
    exact if_pos hin

/-! ## The transition law and the neighbour count -/

/-- C1: on an automaton whose `Grid` has `Height` rows of `Width` cells and at an
in-bounds `(x, y)`, `GameOfLifeStrategy.Update` returns, and returns `true`
exactly when the cell is alive with 2 or 3 alive neighbours (as counted by
`countAliveNeighbors`) or dead with exactly 3; otherwise it returns `false`. -/
theorem gameOfLife_update_law (ca : CellularAutomaton) (x y : Int)
    (hg : Shaped ca.Grid ca.Width ca.Height) (hin : InBounds ca.Width ca.Height x y) :
    ∃ c n, cellAt ca.Grid x y = some c ∧ countAliveNeighbors ca x y = some n ∧
      GameOfLifeStrategy.Update ca x y
        = some (decide ((c.Alive = true ∧ (n = 2 ∨ n = 3)) ∨ (c.Alive = false ∧ n = 3))) := by
  obtain ⟨c, hc⟩ := cellAt_inside hg x y hin
  refine ⟨c, neighborSum ca.Grid x y, hc, countAliveNeighbors_eq hg x y, ?_⟩
  rw [gameOfLife_update_eq hg x y hin]
  simp [nextAlive, lifeRule, aliveAt, hc]

theorem gameOfLife_update_law_witness :
    ∃ c n, cellAt blockCA.Grid 1 1 = some c ∧ countAliveNeighbors blockCA 1 1 = some n ∧
      GameOfLifeStrategy.Update blockCA 1 1
        = some (decide ((c.Alive = true ∧ (n = 2 ∨ n = 3)) ∨ (c.Alive = false ∧ n = 3))) :=
  gameOfLife_update_law blockCA 1 1 (by decide) (by decide)

theorem insideAlive_eq {ca : CellularAutomaton} (hg : Shaped ca.Grid ca.Width ca.Height)
    (p : Int × Int) : insideAlive ca p = aliveAt ca.Grid p.1 p.2 := by
  unfold insideAlive
  by_cases hin : InBounds ca.Width ca.Height p.1 p.2
  · simp [hin]
  · simp [hin, aliveAt_outside hg p.1 p.2 hin]

theorem mooreOffsets_eq : mooreOffsets
    = [(-1, -1), (-1, 0), (-1, 1), (0, -1), (0, 1), (1, -1), (1, 0), (1, 1)] := by
  decide

/-- C2: on a well-shaped grid and at an in-bounds `(x, y)`, `countAliveNeighbors`
returns the number of positions `(x + dx, y + dy)`, `dx, dy ∈ {-1, 0, 1}`,
`(dx, dy) ≠ (0, 0)`, that lie inside the grid and are alive; at the corner
`(0, 0)` that is the number of alive cells among `(1, 0)`, `(0, 1)`, `(1, 1)`. -/
theorem countAliveNeighbors_moore (ca : CellularAutomaton) (x y : Int)
    (hg : Shaped ca.Grid ca.Width ca.Height) (hin : InBounds ca.Width ca.Height x y) :
    countAliveNeighbors ca x y = some (mooreCount ca x y : Int) ∧
      (x = 0 → y = 0 → countAliveNeighbors ca x y
        = some ((List.countP (insideAlive ca) [(1, 0), (0, 1), (1, 1)] : Nat) : Int)) := by
  have hfun : insideAlive ca = fun p => aliveAt ca.Grid p.1 p.2 :=
    funext (insideAlive_eq hg)
  refine ⟨?_, ?_⟩
  · rw [countAliveNeighbors_eq hg, mooreCount, mooreOffsets_eq, hfun]
    simp only [List.map, List.countP_cons, List.countP_nil, neighborSum, aliveNum]
    push_cast
    simp only [Option.some.injEq]
    ring_nf
  · intro hx hy
    subst hx hy
    have h1 : aliveAt ca.Grid (-1) (-1) = false :=
      aliveAt_outside hg _ _ (by unfold InBounds; omega)
    have h2 : aliveAt ca.Grid 0 (-1) = false :=
      aliveAt_outside hg _ _ (by unfold InBounds; omega)
    have h3 : aliveAt ca.Grid 1 (-1) = false :=
      aliveAt_outside hg _ _ (by unfold InBounds; omega)
    have h4 : aliveAt ca.Grid (-1) 0 = false :=
      aliveAt_outside hg _ _ (by unfold InBounds; omega)
    have h5 : aliveAt ca.Grid (-1) 1 = false :=
      aliveAt_outside hg _ _ (by unfold InBounds; omega)
    rw [countAliveNeighbors_eq hg, hfun]
    simp only [List.countP_cons, List.countP_nil, neighborSum, aliveNum]
    norm_num [h1, h2, h3, h4, h5]
    ring

theorem countAliveNeighbors_moore_witness :
    countAliveNeighbors blockCA 0 0 = some (mooreCount blockCA 0 0 : Int) ∧
      ((0 : Int) = 0 → (0 : Int) = 0 → countAliveNeighbors blockCA 0 0
        = some ((List.countP (insideAlive blockCA) [(1, 0), (0, 1), (1, 1)] : Nat) : Int)) :=
  countAliveNeighbors_moore blockCA 0 0 (by decide) (by decide)

/-! ## One generation is simultaneous -/

/-- C3: on a well-shaped automaton using the Game of Life rule
`CellularAutomaton.Update` returns, and at every in-bounds `(x, y)` the new
`Grid[y][x].Alive` is the value of `GameOfLifeStrategy.Update` at `(x, y)` on the
automaton as it was before the step; the value is the same whatever `Buffer`
held before the step. -/
theorem update_simultaneous (ca : CellularAutomaton) (buf : List (List CellState))
    (hw : WellShaped ca) (hs : ca.Strategy = UpdateStrategy.GameOfLifeStrategy) :
    ∃ ca2, ca.Update = some ca2 ∧
      ∀ x y, InBounds ca.Width ca.Height x y →
        ∃ b, GameOfLifeStrategy.Update ca x y = some b ∧
          (cellAt ca2.Grid x y).map CellState.Alive = some b ∧
          GameOfLifeStrategy.Update { ca with Buffer := buf } x y = some b := by
  obtain ⟨g2, hrun, _, hcell⟩ := Update_spec ca hw hs
  refine ⟨_, hrun, ?_⟩
  intro x y hin
  refine ⟨nextAlive ca.Grid x y, gameOfLife_update_eq hw.1 x y hin, ?_,
    @gameOfLife_update_eq { ca with Buffer := buf } hw.1 x y hin⟩
  simp [hcell x y hin, nextCell]

theorem update_simultaneous_witness :
    ∃ ca2, blockCA.Update = some ca2 ∧
      ∀ x y, InBounds blockCA.Width blockCA.Height x y →
        ∃ b, GameOfLifeStrategy.Update blockCA x y = some b ∧
          (cellAt ca2.Grid x y).map CellState.Alive = some b ∧
          GameOfLifeStrategy.Update { blockCA with Buffer := [] } x y = some b :=
  update_simultaneous blockCA [] (by decide) (by decide)

/-! ## Alive cells after one generation -/

/-- One generation in terms of alive cells: the call returns a well-shaped
automaton of the same dimensions and strategy in which a position is alive
exactly when it is in bounds and the rule makes it alive on the old `Grid`. -/
theorem Update_alive (ca : CellularAutomaton) (hw : WellShaped ca)
    (hs : ca.Strategy = UpdateStrategy.GameOfLifeStrategy) :
    ∃ ca2, ca.Update = some ca2 ∧ WellShaped ca2 ∧ ca2.Width = ca.Width ∧
      ca2.Height = ca.Height ∧ ca2.Strategy = ca.Strategy ∧
      ∀ x y, aliveAt ca2.Grid x y
        = (decide (InBounds ca.Width ca.Height x y) && nextAlive ca.Grid x y) := by
  obtain ⟨g2, hrun, hg2, hcell⟩ := Update_spec ca hw hs
  refine ⟨_, hrun, ⟨hg2, hw.1⟩, rfl, rfl, rfl, ?_⟩
  intro x y
  by_cases hin : InBounds ca.Width ca.Height x y
  · simp [aliveAt, hcell x y hin, nextCell, hin]
  · have := aliveAt_outside hg2 x y hin
    simp only [this, hin, decide_False, Bool.false_and]

theorem nextAlive_iff (g : List (List CellState)) (x y : Int) :
    nextAlive g x y = true ↔
      (aliveAt g x y = true ∧ (neighborSum g x y = 2 ∨ neighborSum g x y = 3)) ∨
        (aliveAt g x y = false ∧ neighborSum g x y = 3) := by
  simp [nextAlive, lifeRule]

theorem setNum_spec (S : List (Int × Int)) (x y : Int) :
    ((x, y) ∈ S → setNum S x y = 1) ∧ ((x, y) ∉ S → setNum S x y = 0) := by
  unfold setNum
  constructor
  · intro h
    rw [if_pos h]
  · intro h
    rw [if_neg h]

theorem aliveNum_eq_setNum {g : List (List CellState)} {S : List (Int × Int)}
    (h : AliveExactly g S) (x y : Int) : aliveNum g x y = setNum S x y := by
  unfold aliveNum setNum
  by_cases hm : (x, y) ∈ S
  · rw [if_pos hm, if_pos ((h x y).2 hm)]
  · rw [if_neg hm, if_neg (fun ha => hm ((h x y).1 ha))]

theorem nextAlive_iff_setNext {g : List (List CellState)} {S : List (Int × Int)}
    (h : AliveExactly g S) (x y : Int) : nextAlive g x y = true ↔ setNext S x y := by
  have hsum : neighborSum g x y = setSum S x y := by
    simp only [neighborSum, setSum, aliveNum_eq_setNum h]
  rw [nextAlive_iff, hsum, ← Bool.not_eq_true, h x y]
  rfl

/-- One generation on a pattern: when the alive cells are those listed in `S`
and `T` lists the in-bounds positions that the transition law makes alive, the
call returns a well-shaped automaton of the same dimensions and strategy whose
alive cells are those listed in `T`. -/
theorem Update_pattern (ca : CellularAutomaton) (S T : List (Int × Int))
    (hw : WellShaped ca) (hs : ca.Strategy = UpdateStrategy.GameOfLifeStrategy)
    (hS : AliveExactly ca.Grid S)
    (hT : ∀ x y, (InBounds ca.Width ca.Height x y ∧ setNext S x y) ↔ (x, y) ∈ T) :
    ∃ ca2, ca.Update = some ca2 ∧ WellShaped ca2 ∧ ca2.Width = ca.Width ∧
      ca2.Height = ca.Height ∧ ca2.Strategy = ca.Strategy ∧ AliveExactly ca2.Grid T := by
  obtain ⟨ca2, hrun, hw2, hW, hH, hs2, halive⟩ := Update_alive ca hw hs
  refine ⟨ca2, hrun, hw2, hW, hH, hs2, ?_⟩
  intro x y
  rw [halive, Bool.and_eq_true, decide_eq_true_iff, nextAlive_iff_setNext hS, hT]

/-- The alive cells of a concrete grid, read off cell by cell. -/
theorem aliveExactly_of_cells (g : List (List CellState)) (W H : Nat) (S : List (Int × Int))
    (hs : Shaped g W H) (hS : ∀ p ∈ S, InBounds W H p.1 p.2)
    (hc : ∀ j ∈ List.range H, ∀ i ∈ List.range W,
      aliveAt g (i : Int) (j : Int) = decide (((i : Int), (j : Int)) ∈ S)) :
    AliveExactly g S := by
  intro x y
  by_cases hin : InBounds W H x y
  · obtain ⟨hx0, hx1, hy0, hy1⟩ := hin
    have h := hc y.toNat (List.mem_range.2 (by omega)) x.toNat (List.mem_range.2 (by omega))
    rw [Int.toNat_of_nonneg hx0, Int.toNat_of_nonneg hy0] at h
    rw [h, decide_eq_true_iff]
  · rw [aliveAt_outside hs x y hin]
    constructor
    · intro h
      cases h
    · intro h
      exact absurd (hS (x, y) h) hin

/-! ## Still life and oscillator -/

set_option maxHeartbeats 8000000 in
/-- Around a 2 by 2 block every block cell has exactly 3 block cells as
neighbours and every other position has at most 2. -/
theorem block_sum (x y i j : Int) :
    ((i, j) ∈ blockCells x y → setSum (blockCells x y) i j = 3) ∧
      ((i, j) ∉ blockCells x y → setSum (blockCells x y) i j ≤ 2) := by
  have key := setNum_spec (blockCells x y)
  unfold setSum
  unfold blockCells at *
  simp only [List.mem_cons, Prod.mk.injEq, List.mem_singleton, List.not_mem_nil, or_false] at *
  have hi : i ≤ x - 2 ∨ i = x - 1 ∨ i = x ∨ i = x + 1 ∨ i = x + 2 ∨ x + 3 ≤ i := by omega
  have hj : j ≤ y - 2 ∨ j = y - 1 ∨ j = y ∨ j = y + 1 ∨ j = y + 2 ∨ y + 3 ≤ j := by omega
  rcases hi with hi | hi | hi | hi | hi | hi <;> rcases hj with hj | hj | hj | hj | hj | hj <;>
  ( first
      | (have e1 := (key (i + -1) (j + -1)).1 (by omega))
      | (have e1 := (key (i + -1) (j + -1)).2 (by omega))
    first
      | (have e2 := (key (i + 0) (j + -1)).1 (by omega))
      | (have e2 := (key (i + 0) (j + -1)).2 (by omega))
    first
      | (have e3 := (key (i + 1) (j + -1)).1 (by omega))
      | (have e3 := (key (i + 1) (j + -1)).2 (by omega))
    first
      | (have e4 := (key (i + -1) (j + 0)).1 (by omega))
      | (have e4 := (key (i + -1) (j + 0)).2 (by omega))
    first
      | (have e5 := (key (i + 1) (j + 0)).1 (by omega))
      | (have e5 := (key (i + 1) (j + 0)).2 (by omega))
    first
      | (have e6 := (key (i + -1) (j + 1)).1 (by omega))
      | (have e6 := (key (i + -1) (j + 1)).2 (by omega))
    first
      | (have e7 := (key (i + 0) (j + 1)).1 (by omega))
      | (have e7 := (key (i + 0) (j + 1)).2 (by omega))
    first
      | (have e8 := (key (i + 1) (j + 1)).1 (by omega))
      | (have e8 := (key (i + 1) (j + 1)).2 (by omega))
    rw [e1, e2, e3, e4, e5, e6, e7, e8]
    omega )

theorem block_rule (W H x y : Int) (hx0 : 0 ≤ x) (hx1 : x + 1 < W) (hy0 : 0 ≤ y)
    (hy1 : y + 1 < H) (i j : Int) :
    (InBounds W H i j ∧ setNext (blockCells x y) i j) ↔ (i, j) ∈ blockCells x y := by
  obtain ⟨h3, h2⟩ := block_sum x y i j
  unfold setNext
  constructor
  · rintro ⟨_, ⟨hm, _⟩ | ⟨hm, hsum⟩⟩
    · exact hm
    · have := h2 hm
      omega
  · intro hm
    refine ⟨?_, Or.inl ⟨hm, Or.inr (h3 hm)⟩⟩
    unfold blockCells at hm
    simp only [List.mem_cons, Prod.mk.injEq, List.mem_singleton, List.not_mem_nil,
      or_false] at hm
    unfold InBounds
    omega

/-- C7: on a grid with `Width ≥ 2` and `Height ≥ 2` whose alive cells are exactly
the 2 by 2 block at a position `(x, y)` with `x + 1 < Width`, `y + 1 < Height`,
one `CellularAutomaton.Update` with the Game of Life rule returns a grid whose
alive cells are exactly the same block; `countAliveNeighbors` is 3 at every block
cell and at most 2 at every other cell. -/
theorem block_still_life (ca : CellularAutomaton) (x y : Int) (hw : WellShaped ca)
    (hs : ca.Strategy = UpdateStrategy.GameOfLifeStrategy)
    (_hW : 2 ≤ ca.Width) (_hH : 2 ≤ ca.Height)
    (hx0 : 0 ≤ x) (hx1 : x + 1 < ca.Width) (hy0 : 0 ≤ y) (hy1 : y + 1 < ca.Height)
    (hS : AliveExactly ca.Grid (blockCells x y)) :
    (∃ ca2, ca.Update = some ca2 ∧ AliveExactly ca2.Grid (blockCells x y)) ∧
      ∀ i j, InBounds ca.Width ca.Height i j →
        ∃ n, countAliveNeighbors ca i j = some n ∧
          ((i, j) ∈ blockCells x y → n = 3) ∧ ((i, j) ∉ blockCells x y → n ≤ 2) := by
  constructor
  · obtain ⟨ca2, hrun, _, _, _, _, halive⟩ :=
      Update_pattern ca (blockCells x y) (blockCells x y) hw hs hS
        (block_rule ca.Width ca.Height x y hx0 hx1 hy0 hy1)
    exact ⟨ca2, hrun, halive⟩
  · intro i j _
    refine ⟨neighborSum ca.Grid i j, countAliveNeighbors_eq hw.1 i j, ?_⟩
    have hsum : neighborSum ca.Grid i j = setSum (blockCells x y) i j := by
      simp only [neighborSum, setSum, aliveNum_eq_setNum hS]
    rw [hsum]
    exact block_sum x y i j

theorem block_still_life_witness :
    (∃ ca2, fullBlockCA.Update = some ca2 ∧ AliveExactly ca2.Grid (blockCells 0 0)) ∧
      ∀ i j, InBounds fullBlockCA.Width fullBlockCA.Height i j →
        ∃ n, countAliveNeighbors fullBlockCA i j = some n ∧
          ((i, j) ∈ blockCells 0 0 → n = 3) ∧ ((i, j) ∉ blockCells 0 0 → n ≤ 2) :=
  block_still_life fullBlockCA 0 0 (by decide) (by decide) (by decide) (by decide)
    (by decide) (by decide) (by decide) (by decide)
    (aliveExactly_of_cells fullBlockCA.Grid 2 2 (blockCells 0 0) (by decide) (by decide)
      (by decide))

set_option maxHeartbeats 8000000 in
/-- The transition law turns the line `(1, 0)`, `(1, 1)`, `(1, 2)` into the
perpendicular line on every grid of at least 5 by 5 cells. -/
theorem blinker_rule (W H : Int) (hW : 5 ≤ W) (hH : 5 ≤ H) (i j : Int) :
    (InBounds W H i j ∧ setNext blinkerCells i j) ↔ (i, j) ∈ blinkerTurned := by
  have key := setNum_spec blinkerCells
  unfold setNext setSum InBounds
  unfold blinkerCells at *
  unfold blinkerTurned
  simp only [List.mem_cons, Prod.mk.injEq, List.mem_singleton, List.not_mem_nil, or_false] at *
  have hi : i ≤ -2 ∨ i = -1 ∨ i = 0 ∨ i = 1 ∨ i = 2 ∨ i = 3 ∨ 4 ≤ i := by omega
  have hj : j ≤ -2 ∨ j = -1 ∨ j = 0 ∨ j = 1 ∨ j = 2 ∨ j = 3 ∨ 4 ≤ j := by omega
  rcases hi with hi | hi | hi | hi | hi | hi | hi <;>
  rcases hj with hj | hj | hj | hj | hj | hj | hj <;>
  ( first
      | (have e1 := (key (i + -1) (j + -1)).1 (by omega))
      | (have e1 := (key (i + -1) (j + -1)).2 (by omega))
    first
      | (have e2 := (key (i + 0) (j + -1)).1 (by omega))
      | (have e2 := (key (i + 0) (j + -1)).2 (by omega))
    first
      | (have e3 := (key (i + 1) (j + -1)).1 (by omega))
      | (have e3 := (key (i + 1) (j + -1)).2 (by omega))
    first
      | (have e4 := (key (i + -1) (j + 0)).1 (by omega))
      | (have e4 := (key (i + -1) (j + 0)).2 (by omega))
    first
      | (have e5 := (key (i + 1) (j + 0)).1 (by omega))
      | (have e5 := (key (i + 1) (j + 0)).2 (by omega))
    first
      | (have e6 := (key (i + -1) (j + 1)).1 (by omega))
      | (have e6 := (key (i + -1) (j + 1)).2 (by omega))
    first
      | (have e7 := (key (i + 0) (j + 1)).1 (by omega))
      | (have e7 := (key (i + 0) (j + 1)).2 (by omega))
    first
      | (have e8 := (key (i + 1) (j + 1)).1 (by omega))
      | (have e8 := (key (i + 1) (j + 1)).2 (by omega))
    rw [e1, e2, e3, e4, e5, e6, e7, e8]
    omega )

set_option maxHeartbeats 8000000 in
/-- The transition law turns the line `(0, 1)`, `(1, 1)`, `(2, 1)` back into the
line `(1, 0)`, `(1, 1)`, `(1, 2)` on every grid of at least 5 by 5 cells. -/
theorem blinkerTurned_rule (W H : Int) (hW : 5 ≤ W) (hH : 5 ≤ H) (i j : Int) :
    (InBounds W H i j ∧ setNext blinkerTurned i j) ↔ (i, j) ∈ blinkerCells := by
  have key := setNum_spec blinkerTurned
  unfold setNext setSum InBounds
  unfold blinkerTurned at *
  unfold blinkerCells
  simp only [List.mem_cons, Prod.mk.injEq, List.mem_singleton, List.not_mem_nil, or_false] at *
  have hi : i ≤ -2 ∨ i = -1 ∨ i = 0 ∨ i = 1 ∨ i = 2 ∨ i = 3 ∨ 4 ≤ i := by omega
  have hj : j ≤ -2 ∨ j = -1 ∨ j = 0 ∨ j = 1 ∨ j = 2 ∨ j = 3 ∨ 4 ≤ j := by omega
  rcases hi with hi | hi | hi | hi | hi | hi | hi <;>
  rcases hj with hj | hj | hj | hj | hj | hj | hj <;>
  ( first
      | (have e1 := (key (i + -1) (j + -1)).1 (by omega))
      | (have e1 := (key (i + -1) (j + -1)).2 (by omega))
    first
      | (have e2 := (key (i + 0) (j + -1)).1 (by omega))
      | (have e2 := (key (i + 0) (j + -1)).2 (by omega))
    first
      | (have e3 := (key (i + 1) (j + -1)).1 (by omega))
      | (have e3 := (key (i + 1) (j + -1)).2 (by omega))
    first
      | (have e4 := (key (i + -1) (j + 0)).1 (by omega))
      | (have e4 := (key (i + -1) (j + 0)).2 (by omega))
    first
      | (have e5 := (key (i + 1) (j + 0)).1 (by omega))
      | (have e5 := (key (i + 1) (j + 0)).2 (by omega))
    first
      | (have e6 := (key (i + -1) (j + 1)).1 (by omega))
      | (have e6 := (key (i + -1) (j + 1)).2 (by omega))
    first
      | (have e7 := (key (i + 0) (j + 1)).1 (by omega))
      | (have e7 := (key (i + 0) (j + 1)).2 (by omega))
    first
      | (have e8 := (key (i + 1) (j + 1)).1 (by omega))
      | (have e8 := (key (i + 1) (j + 1)).2 (by omega))
    rw [e1, e2, e3, e4, e5, e6, e7, e8]
    omega )

/-- C8: on a grid with `Width ≥ 5` and `Height ≥ 5` whose alive cells are exactly
`(1, 0)`, `(1, 1)`, `(1, 2)`, one `CellularAutomaton.Update` with the Game of Life
rule gives exactly the alive cells `(0, 1)`, `(1, 1)`, `(2, 1)`, and a second one
gives back exactly `(1, 0)`, `(1, 1)`, `(1, 2)`. -/
theorem blinker_period_two (ca : CellularAutomaton) (hw : WellShaped ca)
    (hs : ca.Strategy = UpdateStrategy.GameOfLifeStrategy)
    (hW : 5 ≤ ca.Width) (hH : 5 ≤ ca.Height)
    (hS : AliveExactly ca.Grid [(1, 0), (1, 1), (1, 2)]) :
    ∃ ca1 ca2, ca.Update = some ca1 ∧ AliveExactly ca1.Grid [(0, 1), (1, 1), (2, 1)] ∧
      ca1.Update = some ca2 ∧ AliveExactly ca2.Grid [(1, 0), (1, 1), (1, 2)] := by
  obtain ⟨ca1, hrun1, hw1, hW1, hH1, hs1, halive1⟩ :=
    Update_pattern ca blinkerCells blinkerTurned hw hs hS
      (blinker_rule ca.Width ca.Height hW hH)
  obtain ⟨ca2, hrun2, _, _, _, _, halive2⟩ :=
    Update_pattern ca1 blinkerTurned blinkerCells hw1 (hs1.trans hs) halive1
      (blinkerTurned_rule ca1.Width ca1.Height (by omega) (by omega))
  exact ⟨ca1, ca2, hrun1, halive1, hrun2, halive2⟩

theorem blinker_period_two_witness :
    ∃ ca1 ca2, blinkerCA.Update = some ca1 ∧ AliveExactly ca1.Grid [(0, 1), (1, 1), (2, 1)] ∧
      ca1.Update = some ca2 ∧ AliveExactly ca2.Grid [(1, 0), (1, 1), (1, 2)] :=
  blinker_period_two blinkerCA (by decide) (by decide) (by decide) (by decide)
    (aliveExactly_of_cells blinkerCA.Grid 5 5 [(1, 0), (1, 1), (1, 2)] (by decide) (by decide)
      (by decide))

/-! ## The dead grid -/

theorem aliveAt_false_of_allDead {g : List (List CellState)} (h : AllDead g) (x y : Int) :
    aliveAt g x y = false := by
  unfold aliveAt
  cases hc : cellAt g x y with
  | none => rfl
  | some c =>
    unfold cellAt at hc
    cases hrow : index g y with
    | none => simp [hrow] at hc
    | some row =>
      simp only [hrow, Option.bind_eq_bind, Option.some_bind] at hc
      obtain ⟨hy0, hy1⟩ := index_bounds g y row hrow
      obtain ⟨hx0, hx1⟩ := index_bounds row x c hc
      obtain ⟨row2, hrow2, hmem⟩ := index_some g y hy0 hy1
      obtain ⟨c2, hc2, hmemc⟩ := index_some row x hx0 hx1
      rw [hrow] at hrow2
      cases hrow2
      rw [hc] at hc2
      cases hc2
      exact h row hmem c hmemc

theorem allDead_of_aliveAt_false {g : List (List CellState)}
    (h : ∀ x y, aliveAt g x y = false) : AllDead g := by
  intro row hrow c hc
  obtain ⟨j, hj, hjeq⟩ := List.getElem_of_mem hrow
  obtain ⟨i, hi, hieq⟩ := List.getElem_of_mem hc
  have h1 : index g (j : Int) = some row := by
    rw [index_eq_getElem? g j (by omega)]
    simp [hj, hjeq]
  have h2 : index row (i : Int) = some c := by
    rw [index_eq_getElem? row i (by omega)]
    simp [hi, hieq]
  have := h i j
  simpa [aliveAt, cellAt, h1, h2] using this

theorem dead_rule (W H : Int) (x y : Int) :
    (InBounds W H x y ∧ setNext [] x y) ↔ (x, y) ∈ ([] : List (Int × Int)) := by
  simp [setNext, setSum, setNum]

/-- C9: from a well-shaped automaton with the Game of Life rule whose `Grid` holds
dead cells only, whatever `Buffer` holds, `n` calls of
`CellularAutomaton.Update` return, and every cell of the resulting `Grid` is
dead. -/
theorem dead_grid_stays_dead (n : Nat) (ca : CellularAutomaton) (hw : WellShaped ca)
    (hs : ca.Strategy = UpdateStrategy.GameOfLifeStrategy) (hd : AllDead ca.Grid) :
    ∃ ca2, ca.UpdateN n = some ca2 ∧ AllDead ca2.Grid := by
  induction n generalizing ca with
  | zero => exact ⟨ca, rfl, hd⟩
  | succ n ih =>
    have hS : AliveExactly ca.Grid [] := by
      intro x y
      simp [aliveAt_false_of_allDead hd x y]
    obtain ⟨ca1, hrun, hw1, _, _, hs1, halive⟩ :=
      Update_pattern ca [] [] hw hs hS (dead_rule ca.Width ca.Height)
    have hd1 : AllDead ca1.Grid := by
      apply allDead_of_aliveAt_false
      intro x y
      cases ha : aliveAt ca1.Grid x y with
      | false => rfl
      | true => exact absurd ((halive x y).1 ha) (List.not_mem_nil _)
    obtain ⟨ca2, hrun2, hd2⟩ := ih ca1 hw1 (hs1.trans hs) hd1
    refine ⟨ca2, ?_, hd2⟩
    simp only [CellularAutomaton.UpdateN, hrun, Option.bind_eq_bind, Option.some_bind, hrun2]

theorem dead_grid_stays_dead_witness :
    ∃ ca2, deadCA.UpdateN 3 = some ca2 ∧ AllDead ca2.Grid :=
  dead_grid_stays_dead 3 deadCA (by decide) (by decide) (by decide)

/-! ## Placing a glider -/

theorem cellAt_eq_index {g : List (List CellState)} {row : List CellState} {y : Int}
    (h : index g y = some row) (x : Int) : cellAt g x y = index row x := by
  simp [cellAt, h]

/-- The two assignments for one in-bounds coordinate pair succeed; they change
`Grid` only, keep its shape, and leave at `(a, b)` the former cell with
`Alive = true` and `Image = AliveImage`. -/
theorem markAlive_spec (g : Game) (a b : Int)
    (hg : Shaped g.CA.Grid g.CA.Width g.CA.Height)
    (hin : InBounds g.CA.Width g.CA.Height a b) :
    ∃ grid, g.markAlive (a, b) = some { g with CA := { g.CA with Grid := grid } } ∧
      Shaped grid g.CA.Width g.CA.Height ∧
      ∀ i j, cellAt grid i j
        = if i = a ∧ j = b then some ⟨true, g.CA.AliveImage⟩ else cellAt g.CA.Grid i j := by
  obtain ⟨c, hc⟩ := cellAt_inside hg a b hin
  obtain ⟨row, g1, hrow, hset, hg1, hshape1, hcell1⟩ :=
    write_spec hg a b hin { c with Alive := true }
  have hc1 : index row a = some c := by rw [← cellAt_eq_index hrow a, hc]
  obtain ⟨row1, g2, hrow1, hset1, hg2, hshape2, hcell2⟩ :=
    write_spec hshape1 a b hin ⟨true, g.CA.AliveImage⟩
  have hc2 : index row1 a = some { c with Alive := true } := by
    rw [← cellAt_eq_index hrow1 a, hcell1]
    simp
  refine ⟨g2, ?_, hshape2, ?_⟩
  · simp only [Game.markAlive, hrow, hc1, hset, hg1, hrow1, hc2, hset1, hg2,
      Option.bind_eq_bind, Option.some_bind, pure]
  · intro i j
    rw [hcell2, hcell1]
    by_cases h : i = a ∧ j = b
    · simp only [if_pos h]
    · simp only [if_neg h]

/-- Marking a list of in-bounds coordinate pairs in turn. -/
theorem markAlive_fold (L : List (Int × Int)) :
    ∀ (g : Game), Shaped g.CA.Grid g.CA.Width g.CA.Height →
      (∀ p ∈ L, InBounds g.CA.Width g.CA.Height p.1 p.2) →
      ∃ grid, L.foldlM (fun g coord => Game.markAlive g coord) g
          = some { g with CA := { g.CA with Grid := grid } } ∧
        Shaped grid g.CA.Width g.CA.Height ∧
        ∀ i j, cellAt grid i j
          = if (i, j) ∈ L then some ⟨true, g.CA.AliveImage⟩ else cellAt g.CA.Grid i j := by
  induction L with
  | nil =>
    intro g hg _
    exact ⟨g.CA.Grid, rfl, hg, fun i j => by simp⟩
  | cons p L ih =>
    intro g hg hin
    obtain ⟨grid1, hrun1, hshape1, hcell1⟩ :=
      markAlive_spec g p.1 p.2 hg (hin p (List.mem_cons_self _ _))
    obtain ⟨grid2, hrun2, hshape2, hcell2⟩ :=
      ih { g with CA := { g.CA with Grid := grid1 } } hshape1
        (fun q hq => hin q (List.mem_cons_of_mem _ hq))
    refine ⟨grid2, ?_, hshape2, ?_⟩
    · rw [List.foldlM_cons, hrun1]
      exact hrun2
    · intro i j
      rw [hcell2, hcell1]
      by_cases h1 : (i, j) ∈ L
      · rw [if_pos h1, if_pos (List.mem_cons_of_mem _ h1)]
      · rw [if_neg h1]
        by_cases h2 : i = p.1 ∧ j = p.2
        · have : (i, j) ∈ p :: L := by
            rw [h2.1, h2.2]
            exact List.mem_cons_self _ _
          rw [if_pos h2, if_pos this]
        · have : (i, j) ∉ p :: L := by
            intro hm
            rcases List.mem_cons.1 hm with heq | hm
            · exact h2 ⟨congrArg Prod.fst heq, congrArg Prod.snd heq⟩
            · exact h1 hm
          rw [if_neg h2, if_neg this]

/-- The effect of `addGlider` at an origin that passes its guard. -/
theorem addGlider_spec (g : Game) (x y : Int)
    (hg : Shaped g.CA.Grid g.CA.Width g.CA.Height)
    (hx0 : 1 ≤ x) (hx1 : x < g.CA.Width - 2) (hy0 : 1 ≤ y) (hy1 : y < g.CA.Height - 2) :
    ∃ grid, g.addGlider x y = some { g with CA := { g.CA with Grid := grid } } ∧
      Shaped grid g.CA.Width g.CA.Height ∧
      ∀ i j, cellAt grid i j
        = if (i, j) ∈ gliderCoords x y then some ⟨true, g.CA.AliveImage⟩
          else cellAt g.CA.Grid i j := by
  have hguard : ¬ (x < 1 ∨ x ≥ g.CA.Width - 2 ∨ y < 1 ∨ y ≥ g.CA.Height - 2) := by omega
  unfold Game.addGlider
  rw [if_neg hguard]
  apply markAlive_fold (gliderCoords x y) g hg
  intro p hp
  unfold gliderCoords at hp
  simp only [List.mem_cons, List.mem_singleton, List.not_mem_nil, or_false] at hp
  unfold InBounds
  rcases hp with h | h | h | h | h <;> rw [h] <;> constructor <;> simp <;> omega

/-- C6: on a well-shaped automaton, at every origin `(x, y)`, negative
coordinates included, for which one of the five glider cells lies outside
`[0, Width) × [0, Height)`, `addGlider` returns without panic and leaves the game,
`Grid` and `Buffer` included, unchanged. -/
theorem addGlider_no_space (g : Game) (x y : Int) (_hw : WellShaped g.CA)
    (hout : ∃ p ∈ gliderCoords x y, ¬ InBounds g.CA.Width g.CA.Height p.1 p.2) :
    g.addGlider x y = some g := by
  obtain ⟨p, hp, hnot⟩ := hout
  have hguard : x < 1 ∨ x ≥ g.CA.Width - 2 ∨ y < 1 ∨ y ≥ g.CA.Height - 2 := by
    unfold gliderCoords at hp
    simp only [List.mem_cons, List.mem_singleton, List.not_mem_nil, or_false] at hp
    unfold InBounds at hnot
    rcases hp with h | h | h | h | h <;> rw [h] at hnot <;> simp only at hnot <;> omega
  unfold Game.addGlider
  rw [if_pos hguard]

theorem addGlider_no_space_witness :
    (Game.mk blockCA).addGlider (-1) 1 = some (Game.mk blockCA) :=
  addGlider_no_space (Game.mk blockCA) (-1) 1 (by decide) (by decide)

/-- C5 fails at the origin `(0, 1)` of a 4 by 4 grid: the five glider cells lie
inside the grid, yet `addGlider` changes nothing and the cell `(0, 1)` stays
dead. -/
theorem addGlider_edge_noop :
    (∀ p ∈ gliderCoords 0 1, InBounds blockCA.Width blockCA.Height p.1 p.2) ∧
      (Game.mk blockCA).addGlider 0 1 = some (Game.mk blockCA) ∧
      aliveAt blockCA.Grid 0 1 = false := by
  decide

/-- C5, amended: on a well-shaped automaton and at an origin `(x, y)` with
`1 ≤ x` and `1 ≤ y` whose five glider cells lie inside the grid, `addGlider`
returns, each of the five cells is alive afterwards, every other cell of `Grid`
is the cell it was before, and `Buffer` is unchanged. -/
theorem addGlider_marks (g : Game) (x y : Int) (hw : WellShaped g.CA)
    (hin : ∀ p ∈ gliderCoords x y, InBounds g.CA.Width g.CA.Height p.1 p.2)
    (hx : 1 ≤ x) (hy : 1 ≤ y) :
    ∃ g2, g.addGlider x y = some g2 ∧
      (∀ p ∈ gliderCoords x y, aliveAt g2.CA.Grid p.1 p.2 = true) ∧
      (∀ i j, (i, j) ∉ gliderCoords x y → cellAt g2.CA.Grid i j = cellAt g.CA.Grid i j) ∧
      g2.CA.Buffer = g.CA.Buffer := by
  have h1 := hin (x + 2, y + 1) (by simp [gliderCoords])
  have h2 := hin (x + 1, y + 2) (by simp [gliderCoords])
  obtain ⟨grid, hrun, _, hcell⟩ :=
    addGlider_spec g x y hw.1 hx (by have := h1.2.1; simp only at this; omega) hy
      (by have := h2.2.2.2; simp only at this; omega)
  refine ⟨_, hrun, ?_, ?_, rfl⟩
  · intro p hp
    simp [aliveAt, hcell, hp]
  · intro i j hij
    simp [hcell, hij]

theorem addGlider_marks_witness :
    ∃ g2, (Game.mk blinkerCA).addGlider 1 1 = some g2 ∧
      (∀ p ∈ gliderCoords 1 1, aliveAt g2.CA.Grid p.1 p.2 = true) ∧
      (∀ i j, (i, j) ∉ gliderCoords 1 1 →
        cellAt g2.CA.Grid i j = cellAt (Game.mk blinkerCA).CA.Grid i j) ∧
      g2.CA.Buffer = (Game.mk blinkerCA).CA.Buffer :=
  addGlider_marks (Game.mk blinkerCA) 1 1 (by decide) (by decide) (by decide) (by decide)

/-! ## The glider on the 10 by 10 grid -/

/-- The transition law on a concrete grid size, checked cell by cell. -/
theorem rule_of_cells (W H : Nat) (S T : List (Int × Int))
    (hT : ∀ p ∈ T, InBounds W H p.1 p.2)
    (hc : ∀ j ∈ List.range H, ∀ i ∈ List.range W,
      (setNext S (i : Int) (j : Int) ↔ ((i : Int), (j : Int)) ∈ T)) :
    ∀ x y, (InBounds W H x y ∧ setNext S x y) ↔ (x, y) ∈ T := by
  intro x y
  by_cases hin : InBounds W H x y
  · obtain ⟨hx0, hx1, hy0, hy1⟩ := hin
    have h := hc y.toNat (List.mem_range.2 (by omega)) x.toNat (List.mem_range.2 (by omega))
    rw [Int.toNat_of_nonneg hx0, Int.toNat_of_nonneg hy0] at h
    rw [← h]
    exact ⟨fun hh => hh.2, fun hh => ⟨⟨hx0, hx1, hy0, hy1⟩, hh⟩⟩
  · constructor
    · intro hh
      exact absurd hh.1 hin
    · intro hh
      exact absurd (hT (x, y) hh) hin

theorem glider_phase1 : ∀ x y, (InBounds 10 10 x y ∧ setNext (gliderCoords 2 2) x y)
    ↔ (x, y) ∈ [(3, 2), (1, 3), (2, 3), (2, 4), (3, 4)] :=
  rule_of_cells 10 10 _ _ (by decide) (by decide)

theorem glider_phase2 : ∀ x y,
    (InBounds 10 10 x y ∧ setNext [(3, 2), (1, 3), (2, 3), (2, 4), (3, 4)] x y)
    ↔ (x, y) ∈ [(2, 2), (1, 3), (1, 4), (2, 4), (3, 4)] :=
  rule_of_cells 10 10 _ _ (by decide) (by decide)

theorem glider_phase3 : ∀ x y,
    (InBounds 10 10 x y ∧ setNext [(2, 2), (1, 3), (1, 4), (2, 4), (3, 4)] x y)
    ↔ (x, y) ∈ [(1, 3), (3, 3), (1, 4), (2, 4), (2, 5)] :=
  rule_of_cells 10 10 _ _ (by decide) (by decide)

theorem glider_phase4 : ∀ x y,
    (InBounds 10 10 x y ∧ setNext [(1, 3), (3, 3), (1, 4), (2, 4), (2, 5)] x y)
    ↔ (x, y) ∈ [(1, 3), (1, 4), (1, 5), (2, 5), (3, 4)] :=
  rule_of_cells 10 10 _ _ (by decide) (by decide)

/-- On a grid of dead cells the alive cells after `addGlider` at an origin that
passes the guard are the five glider cells. -/
theorem addGlider_alive (g : Game) (x y : Int) (hw : WellShaped g.CA)
    (hs : g.CA.Strategy = UpdateStrategy.GameOfLifeStrategy)
    (hx0 : 1 ≤ x) (hx1 : x < g.CA.Width - 2) (hy0 : 1 ≤ y) (hy1 : y < g.CA.Height - 2)
    (hd : AllDead g.CA.Grid) :
    ∃ g0, g.addGlider x y = some g0 ∧ WellShaped g0.CA ∧ g0.CA.Width = g.CA.Width ∧
      g0.CA.Height = g.CA.Height ∧ g0.CA.Strategy = UpdateStrategy.GameOfLifeStrategy ∧
      AliveExactly g0.CA.Grid (gliderCoords x y) := by
  obtain ⟨grid, hrun, hshape, hcell⟩ := addGlider_spec g x y hw.1 hx0 hx1 hy0 hy1
  refine ⟨_, hrun, ⟨hshape, hw.2⟩, rfl, rfl, hs, ?_⟩
  intro i j
  have hdead := aliveAt_false_of_allDead hd i j
  unfold aliveAt at hdead ⊢
  simp only [hcell]
  by_cases hm : (i, j) ∈ gliderCoords x y
  · simp [hm]
  · rw [if_neg hm, hdead]
    simp [hm]

/-- C4, amended: on a well-shaped 10 by 10 automaton of dead cells using the Game of
Life rule, `addGlider(2, 2)` followed by four calls of
`CellularAutomaton.Update` returns a grid whose alive cells are exactly the five
glider cells translated by `(-1, +1)`, that is `(1, 3)`, `(1, 4)`, `(1, 5)`,
`(2, 5)`, `(3, 4)`. -/
theorem glider_four_generations (g : Game) (hw : WellShaped g.CA)
    (hW : g.CA.Width = 10) (hH : g.CA.Height = 10)
    (hs : g.CA.Strategy = UpdateStrategy.GameOfLifeStrategy) (hd : AllDead g.CA.Grid) :
    ∃ g0 ca4, g.addGlider 2 2 = some g0 ∧ g0.CA.UpdateN 4 = some ca4 ∧
      AliveExactly ca4.Grid [(1, 3), (1, 4), (1, 5), (2, 5), (3, 4)] := by
  obtain ⟨g0, hrun0, hw0, hW0, hH0, hs0, ha0⟩ :=
    addGlider_alive g 2 2 hw hs (by omega) (by omega) (by omega) (by omega) hd
  rw [hW] at hW0
  rw [hH] at hH0
  obtain ⟨ca1, hrun1, hw1, hW1, hH1, hs1, ha1⟩ :=
    Update_pattern g0.CA _ _ hw0 hs0 ha0 (by rw [hW0, hH0]; exact glider_phase1)
  rw [hW0] at hW1
  rw [hH0] at hH1
  rw [hs0] at hs1
  obtain ⟨ca2, hrun2, hw2, hW2, hH2, hs2, ha2⟩ :=
    Update_pattern ca1 _ _ hw1 hs1 ha1 (by rw [hW1, hH1]; exact glider_phase2)
  rw [hW1] at hW2
  rw [hH1] at hH2
  rw [hs1] at hs2
  obtain ⟨ca3, hrun3, hw3, hW3, hH3, hs3, ha3⟩ :=
    Update_pattern ca2 _ _ hw2 hs2 ha2 (by rw [hW2, hH2]; exact glider_phase3)
  rw [hW2] at hW3
  rw [hH2] at hH3
  rw [hs2] at hs3
  obtain ⟨ca4, hrun4, _, _, _, _, ha4⟩ :=
    Update_pattern ca3 _ _ hw3 hs3 ha3 (by rw [hW3, hH3]; exact glider_phase4)
  refine ⟨g0, ca4, hrun0, ?_, ha4⟩
  simp only [CellularAutomaton.UpdateN, hrun1, hrun2, hrun3, hrun4, Option.bind_eq_bind,
    Option.some_bind]

theorem glider_four_generations_witness :
    ∃ g0 ca4, emptyGame.addGlider 2 2 = some g0 ∧ g0.CA.UpdateN 4 = some ca4 ∧
      AliveExactly ca4.Grid [(1, 3), (1, 4), (1, 5), (2, 5), (3, 4)] :=
  glider_four_generations emptyGame (by decide) (by decide) (by decide) (by decide)
    (by decide)

/-- C4 fails on the new 10 by 10 automaton: after `addGlider(2, 2)` and four
generations the cell `(3, 3)` of the claimed pattern is dead and the cell
`(1, 3)`, outside the claimed pattern, is alive. -/
theorem glider_not_down_right :
    (gliderRun.map fun ca => (aliveAt ca.Grid 3 3, aliveAt ca.Grid 1 3))
      = some (false, true) := by
  decide

/-! ## Construction with a non-positive dimension -/

theorem make_eq {α : Type} (rt : Runtime) (size : Nat) (z : α) (n : Int) (h : 0 ≤ n)
    (hsize : (size : Int) * n ≤ (rt.maxAlloc : Int)) :
    make rt size z n = some (List.replicate n.toNat z) := by
  simp [make, h, hsize]

theorem make_none {α : Type} (rt : Runtime) (size : Nat) (z : α) (n : Int)
    (h : n < 0 ∨ (rt.maxAlloc : Int) < (size : Int) * n) : make rt size z n = none := by
  have : ¬ (0 ≤ n ∧ (size : Int) * n ≤ (rt.maxAlloc : Int)) := by omega
  simp [make, this]

theorem foldlM_none {α β : Type} (f : β → α → Option β) (hf : ∀ s a, f s a = none)
    (l : List α) (hl : l ≠ []) (s : β) : l.foldlM f s = none := by
  cases l with
  | nil => exact absurd rfl hl
  | cons a t => simp [List.foldlM_cons, hf]

theorem set_fill {α : Type} (row e : α) (n k : Nat) (hk : k < n) :
    (List.replicate k row ++ List.replicate (n - k) e).set k row
      = List.replicate (k + 1) row ++ List.replicate (n - (k + 1)) e := by
  apply List.ext_getElem?
  intro m
  simp only [List.getElem?_set, List.getElem?_append, List.getElem?_replicate,
    List.length_replicate, List.length_append]
  split_ifs <;> first | rfl | omega

theorem allocRow_loop (rt : Runtime) (width : Int) (hw : 0 ≤ width)
    (hsize : (rt.cellBytes : Int) * width ≤ (rt.maxAlloc : Int)) (n : Nat) :
    ∀ k, k ≤ n →
      (List.range k).foldlM (allocRow rt width)
          (List.replicate n ([] : List CellState), List.replicate n ([] : List CellState))
        = some
          (List.replicate k (List.replicate width.toNat (CellState.mk false none))
              ++ List.replicate (n - k) [],
            List.replicate k (List.replicate width.toNat (CellState.mk false none))
              ++ List.replicate (n - k) []) := by
  intro k
  induction k with
  | zero =>
    intro _
    simp [pure]
  | succ k ih =>
    intro hk
    have hlt : ((k : Nat) : Int) < ((List.replicate k
        (List.replicate width.toNat (CellState.mk false none))
          ++ List.replicate (n - k) ([] : List CellState)).length : Int) := by
      simp only [List.length_append, List.length_replicate]
      omega
    rw [List.range_succ, List.foldlM_append, ih (by omega)]
    simp only [Option.bind_eq_bind, Option.some_bind, List.foldlM_cons, List.foldlM_nil,
      allocRow, make_eq rt _ _ width hw hsize, assign_eq _ _ _ (Int.natCast_nonneg k) hlt,
      pure, Int.toNat_ofNat, set_fill _ _ n k (by omega)]

/-- The result of `NewCellularAutomaton` for all dimensions: a panic of `make`
for a height that is negative or too large, or, with a positive height, for a
width that is negative or too large; otherwise an automaton of `height` rows of
`width` zero-valued cells. -/
theorem NewCellularAutomaton_eq (rt : Runtime) (fresh : Nat) (width height : Int)
    (strategy : UpdateStrategy) :
    NewCellularAutomaton rt fresh width height strategy
      = if height < 0 ∨ (rt.maxAlloc : Int) < (rt.sliceBytes : Int) * height ∨
            (0 < height ∧ (width < 0 ∨ (rt.maxAlloc : Int) < (rt.cellBytes : Int) * width))
        then none
        else some {
          Width := width
          Height := height
          Grid := List.replicate height.toNat
            (List.replicate width.toNat (CellState.mk false none))
          Buffer := List.replicate height.toNat
            (List.replicate width.toNat (CellState.mk false none))
          Strategy := strategy
          AliveImage := createCellImage fresh true
          DeadImage := createCellImage (fresh + 1) false } := by
  unfold NewCellularAutomaton
  by_cases hh : height < 0 ∨ (rt.maxAlloc : Int) < (rt.sliceBytes : Int) * height
  · have hc : height < 0 ∨ (rt.maxAlloc : Int) < (rt.sliceBytes : Int) * height ∨
        (0 < height ∧ (width < 0 ∨ (rt.maxAlloc : Int) < (rt.cellBytes : Int) * width)) := by
      omega
    rw [if_pos hc, make_none rt _ _ height hh]
    rfl
  · have hh0 : 0 ≤ height := by omega
    have hh1 : (rt.sliceBytes : Int) * height ≤ (rt.maxAlloc : Int) := by omega
    simp only [make_eq rt _ _ height hh0 hh1, Option.bind_eq_bind, Option.some_bind,
      List.length_replicate]
    by_cases hw : width < 0 ∨ (rt.maxAlloc : Int) < (rt.cellBytes : Int) * width
    · by_cases hpos : 0 < height
      · have hne : List.range height.toNat ≠ [] := by
          intro h
          have := List.range_eq_nil.1 h
          omega
        have hf : ∀ s i, allocRow rt width s i = none := by
          intro s i
          simp [allocRow, make_none rt _ _ width hw]
        have hc : height < 0 ∨ (rt.maxAlloc : Int) < (rt.sliceBytes : Int) * height ∨
            (0 < height ∧
              (width < 0 ∨ (rt.maxAlloc : Int) < (rt.cellBytes : Int) * width)) :=
          Or.inr (Or.inr ⟨hpos, hw⟩)
        rw [foldlM_none _ hf _ hne, if_pos hc]
        rfl
      · have h0 : height = 0 := by omega
        subst h0
        simp [pure]
    · have hw0 : 0 ≤ width := by omega
      have hw1 : (rt.cellBytes : Int) * width ≤ (rt.maxAlloc : Int) := by omega
      have hc : ¬ (height < 0 ∨ (rt.maxAlloc : Int) < (rt.sliceBytes : Int) * height ∨
          (0 < height ∧
            (width < 0 ∨ (rt.maxAlloc : Int) < (rt.cellBytes : Int) * width))) := by
        omega
      rw [allocRow_loop rt width hw0 hw1 height.toNat height.toNat (le_refl _), if_neg hc]
      simp [pure]

/-- C10, amended: for `width ≤ 0` or `height ≤ 0`, `NewCellularAutomaton` has no
`InvalidDimension` result: it panics in `make` when `height < 0`, when `height`
is too large for `make`, or when `width < 0` with `height > 0`, and otherwise
(`height = 0`, or `width = 0` with a `height > 0` that `make` accepts) returns an
automaton with the given `Width`, `Height` and strategy whose `Grid` and
`Buffer` are `height` rows without any cell. -/
theorem new_nonpositive (rt : Runtime) (fresh : Nat) (width height : Int)
    (strategy : UpdateStrategy) (h : width ≤ 0 ∨ height ≤ 0) :
    NewCellularAutomaton rt fresh width height strategy
      = if height < 0 ∨ (rt.maxAlloc : Int) < (rt.sliceBytes : Int) * height ∨
            (0 < height ∧ width < 0)
        then none
        else some {
          Width := width
          Height := height
          Grid := List.replicate height.toNat []
          Buffer := List.replicate height.toNat []
          Strategy := strategy
          AliveImage := createCellImage fresh true
          DeadImage := createCellImage (fresh + 1) false } := by
  rw [NewCellularAutomaton_eq]
  by_cases h0 : height ≤ 0
  · by_cases hneg : height < 0
    · have hc1 : height < 0 ∨ (rt.maxAlloc : Int) < (rt.sliceBytes : Int) * height ∨
          (0 < height ∧
            (width < 0 ∨ (rt.maxAlloc : Int) < (rt.cellBytes : Int) * width)) :=
        Or.inl hneg
      have hc2 : height < 0 ∨ (rt.maxAlloc : Int) < (rt.sliceBytes : Int) * height ∨
          (0 < height ∧ width < 0) := Or.inl hneg
      rw [if_pos hc1, if_pos hc2]
    · have hz : height = 0 := by omega
      subst hz
      simp
  · have hw : width ≤ 0 := by omega
    have hprod : (rt.cellBytes : Int) * width ≤ 0 :=
      mul_nonpos_of_nonneg_of_nonpos (Int.natCast_nonneg _) hw
    by_cases hc2 : height < 0 ∨ (rt.maxAlloc : Int) < (rt.sliceBytes : Int) * height ∨
        (0 < height ∧ width < 0)
    · have hc1 : height < 0 ∨ (rt.maxAlloc : Int) < (rt.sliceBytes : Int) * height ∨
          (0 < height ∧
            (width < 0 ∨ (rt.maxAlloc : Int) < (rt.cellBytes : Int) * width)) := by
        omega
      rw [if_pos hc1, if_pos hc2]
    · have hc1 : ¬ (height < 0 ∨ (rt.maxAlloc : Int) < (rt.sliceBytes : Int) * height ∨
          (0 < height ∧
            (width < 0 ∨ (rt.maxAlloc : Int) < (rt.cellBytes : Int) * width))) := by
        omega
      have hz : width = 0 := by omega
      subst hz
      rw [if_neg hc1, if_neg hc2]
      simp

theorem new_nonpositive_witness :
    NewCellularAutomaton amd64 0 0 2 UpdateStrategy.GameOfLifeStrategy
      = if (2 : Int) < 0 ∨ (amd64.maxAlloc : Int) < (amd64.sliceBytes : Int) * 2 ∨
            ((0 : Int) < 2 ∧ (0 : Int) < 0)
        then none
        else some {
          Width := 0
          Height := 2
          Grid := List.replicate (2 : Int).toNat []
          Buffer := List.replicate (2 : Int).toNat []
          Strategy := UpdateStrategy.GameOfLifeStrategy
          AliveImage := createCellImage 0 true
          DeadImage := createCellImage (0 + 1) false } :=
  new_nonpositive amd64 0 0 2 UpdateStrategy.GameOfLifeStrategy (by decide)

/-- C10 fails for `width = 0`, `height = 0`: the call returns an automaton with an
empty `Grid` and `Buffer` and signals no failure. -/
theorem new_zero_returns :
    NewCellularAutomaton amd64 0 0 0 UpdateStrategy.GameOfLifeStrategy
      = some {
          Width := 0
          Height := 0
          Grid := []
          Buffer := []
          Strategy := UpdateStrategy.GameOfLifeStrategy
          AliveImage := createCellImage 0 true
          DeadImage := createCellImage 1 false } := by
  decide

/-! ## Cells of a grid -/

theorem mem_of_cellAt {g : List (List CellState)} {x y : Int} {c : CellState}
    (h : cellAt g x y = some c) : ∃ row ∈ g, c ∈ row := by
  unfold cellAt at h
  cases hrow : index g y with
  | none => simp [hrow] at h
  | some row =>
    simp only [hrow, Option.bind_eq_bind, Option.some_bind] at h
    obtain ⟨hy0, hy1⟩ := index_bounds g y row hrow
    obtain ⟨hx0, hx1⟩ := index_bounds row x c h
    obtain ⟨row2, hrow2, hmem⟩ := index_some g y hy0 hy1
    obtain ⟨c2, hc2, hmemc⟩ := index_some row x hx0 hx1
    rw [hrow] at hrow2
    cases hrow2
    rw [h] at hc2
    cases hc2
    exact ⟨row, hmem, hmemc⟩

theorem cellAt_of_mem {g : List (List CellState)} {row : List CellState} {c : CellState}
    (hrow : row ∈ g) (hc : c ∈ row) : ∃ x y : Int, cellAt g x y = some c := by
  obtain ⟨j, hj, hjeq⟩ := List.getElem_of_mem hrow
  obtain ⟨i, hi, hieq⟩ := List.getElem_of_mem hc
  have h1 : index g (j : Int) = some row := by
    rw [index_eq_getElem? g j (by omega)]
    simp [hj, hjeq]
  have h2 : index row (i : Int) = some c := by
    rw [index_eq_getElem? row i (by omega)]
    simp [hi, hieq]
  exact ⟨i, j, by simp [cellAt, h1, h2]⟩

theorem cellAt_of_mem_shaped {g : List (List CellState)} {W H : Int} (hg : Shaped g W H)
    {row : List CellState} {c : CellState} (hrow : row ∈ g) (hc : c ∈ row) :
    ∃ x y : Int, InBounds W H x y ∧ cellAt g x y = some c := by
  obtain ⟨x, y, h⟩ := cellAt_of_mem hrow hc
  refine ⟨x, y, ?_, h⟩
  by_contra hout
  rw [cellAt_outside hg x y hout] at h
  cases h

/-! ## Construction with positive dimensions -/

theorem shaped_replicate (width height : Int) (hw : 0 ≤ width) (hh : 0 ≤ height)
    (c : CellState) :
    Shaped (List.replicate height.toNat (List.replicate width.toNat c)) width height := by
  constructor
  · simp only [List.length_replicate]
    omega
  · intro row hrow
    rw [(List.mem_replicate.1 hrow).2]
    simp only [List.length_replicate]
    omega

/-- C11 fails on the 64-bit runtime for `width = 1`, `height = 2^62`: the first
`make` panics with `len out of range` and no automaton is returned. -/
theorem new_too_large :
    NewCellularAutomaton amd64 0 1 (2 ^ 62) UpdateStrategy.GameOfLifeStrategy = none := by
  decide

/-- C11, amended: for `width > 0` and `height > 0` that `make` accepts, a slice of
`height` slice headers and a slice of `width` cells being each of at most
`maxAlloc` bytes, `NewCellularAutomaton` returns an automaton with
`Width = width`, `Height = height`, the given strategy, and a `Grid` and a
`Buffer` of `height` rows of `width` cells each, every cell dead. -/
theorem new_positive (rt : Runtime) (fresh : Nat) (width height : Int)
    (strategy : UpdateStrategy) (hw : 0 < width) (hh : 0 < height)
    (hwsize : (rt.cellBytes : Int) * width ≤ (rt.maxAlloc : Int))
    (hhsize : (rt.sliceBytes : Int) * height ≤ (rt.maxAlloc : Int)) :
    ∃ ca, NewCellularAutomaton rt fresh width height strategy = some ca ∧
      ca.Width = width ∧ ca.Height = height ∧ ca.Strategy = strategy ∧
      Shaped ca.Grid width height ∧ Shaped ca.Buffer width height ∧
      AllDead ca.Grid ∧ AllDead ca.Buffer := by
  have hc : ¬ (height < 0 ∨ (rt.maxAlloc : Int) < (rt.sliceBytes : Int) * height ∨
      (0 < height ∧ (width < 0 ∨ (rt.maxAlloc : Int) < (rt.cellBytes : Int) * width))) := by
    omega
  have hshape := shaped_replicate width height (by omega) (by omega) (CellState.mk false none)
  have hdead : AllDead (List.replicate height.toNat
      (List.replicate width.toNat (CellState.mk false none))) := by
    intro row hrow c hc
    rw [(List.mem_replicate.1 hrow).2] at hc
    rw [(List.mem_replicate.1 hc).2]
  rw [NewCellularAutomaton_eq, if_neg hc]
  exact ⟨_, rfl, rfl, rfl, rfl, hshape, hshape, hdead, hdead⟩

theorem new_positive_witness :
    ∃ ca, NewCellularAutomaton amd64 0 3 2 UpdateStrategy.GameOfLifeStrategy = some ca ∧
      ca.Width = 3 ∧ ca.Height = 2 ∧ ca.Strategy = UpdateStrategy.GameOfLifeStrategy ∧
      Shaped ca.Grid 3 2 ∧ Shaped ca.Buffer 3 2 ∧ AllDead ca.Grid ∧ AllDead ca.Buffer :=
  new_positive amd64 0 3 2 UpdateStrategy.GameOfLifeStrategy (by decide) (by decide)
    (by decide) (by decide)

/-! ## The exchange of the buffers -/

/-- C16: on a well-shaped automaton using the Game of Life rule
`CellularAutomaton.Update` returns; afterwards `Buffer` is the `Grid` of before
the step, `Grid` has the same shape and holds at every in-bounds `(x, y)` the
cell computed by the rule on the old `Grid`, and `Width`, `Height`, `Strategy`,
`AliveImage` and `DeadImage` are unchanged. -/
theorem update_swaps_buffers (ca : CellularAutomaton) (hw : WellShaped ca)
    (hs : ca.Strategy = UpdateStrategy.GameOfLifeStrategy) :
    ∃ ca2, ca.Update = some ca2 ∧ ca2.Buffer = ca.Grid ∧
      Shaped ca2.Grid ca.Width ca.Height ∧
      (∀ x y, InBounds ca.Width ca.Height x y →
        ∃ b, GameOfLifeStrategy.Update ca x y = some b ∧
          cellAt ca2.Grid x y
            = some (CellState.mk b (if b then ca.AliveImage else ca.DeadImage))) ∧
      ca2.Width = ca.Width ∧ ca2.Height = ca.Height ∧ ca2.Strategy = ca.Strategy ∧
      ca2.AliveImage = ca.AliveImage ∧ ca2.DeadImage = ca.DeadImage := by
  obtain ⟨g2, hrun, hg2, hcell⟩ := Update_spec ca hw hs
  refine ⟨_, hrun, rfl, hg2, ?_, rfl, rfl, rfl, rfl, rfl⟩
  intro x y hin
  exact ⟨nextAlive ca.Grid x y, gameOfLife_update_eq hw.1 x y hin, hcell x y hin⟩

theorem update_swaps_buffers_witness :
    ∃ ca2, blockCA.Update = some ca2 ∧ ca2.Buffer = blockCA.Grid ∧
      Shaped ca2.Grid blockCA.Width blockCA.Height ∧
      (∀ x y, InBounds blockCA.Width blockCA.Height x y →
        ∃ b, GameOfLifeStrategy.Update blockCA x y = some b ∧
          cellAt ca2.Grid x y
            = some (CellState.mk b (if b then blockCA.AliveImage else blockCA.DeadImage))) ∧
      ca2.Width = blockCA.Width ∧ ca2.Height = blockCA.Height ∧
      ca2.Strategy = blockCA.Strategy ∧
      ca2.AliveImage = blockCA.AliveImage ∧ ca2.DeadImage = blockCA.DeadImage :=
  update_swaps_buffers blockCA (by decide) (by decide)

/-! ## Images and states -/

/-- The whole effect of `addGlider`, for every origin: the call returns, only
`Grid` may change, it keeps its shape, and each of its cells is the cell of
before or an alive cell with the image `AliveImage`. -/
theorem addGlider_total (g : Game) (x y : Int)
    (hg : Shaped g.CA.Grid g.CA.Width g.CA.Height) :
    ∃ grid, g.addGlider x y = some { g with CA := { g.CA with Grid := grid } } ∧
      Shaped grid g.CA.Width g.CA.Height ∧
      ∀ i j, cellAt grid i j = cellAt g.CA.Grid i j ∨
        cellAt grid i j = some ⟨true, g.CA.AliveImage⟩ := by
  by_cases hguard : x < 1 ∨ x ≥ g.CA.Width - 2 ∨ y < 1 ∨ y ≥ g.CA.Height - 2
  · refine ⟨g.CA.Grid, ?_, hg, fun i j => Or.inl rfl⟩
    unfold Game.addGlider
    rw [if_pos hguard]
  · obtain ⟨grid, hrun, hshape, hcell⟩ :=
      addGlider_spec g x y hg (by omega) (by omega) (by omega) (by omega)
    refine ⟨grid, hrun, hshape, ?_⟩
    intro i j
    rw [hcell]
    by_cases hm : (i, j) ∈ gliderCoords x y
    · rw [if_pos hm]
      exact Or.inr rfl
    · rw [if_neg hm]
      exact Or.inl rfl

/-- C18: on a well-shaped automaton using the Game of Life rule, after
`CellularAutomaton.Update` every cell of `Grid` has `Image = AliveImage` when
alive and `Image = DeadImage` when dead, so that no cell has a nil image when
the two images of the automaton are not nil, as they are in every automaton
that `NewCellularAutomaton` returns; and `addGlider`, at any origin, keeps this
agreement of image and state in `Grid`. -/
theorem images_follow_state (ca : CellularAutomaton) (g : Game) (x y : Int)
    (hw : WellShaped ca) (hs : ca.Strategy = UpdateStrategy.GameOfLifeStrategy)
    (hwg : WellShaped g.CA)
    (hm : ImagesMatch g.CA.Grid g.CA.AliveImage g.CA.DeadImage) :
    (∃ ca2, ca.Update = some ca2 ∧
        ImagesMatch ca2.Grid ca2.AliveImage ca2.DeadImage ∧
        (ca.AliveImage ≠ none → ca.DeadImage ≠ none → NoMissingImage ca2.Grid)) ∧
      (∀ (rt : Runtime) (fresh : Nat) (width height : Int) (strategy : UpdateStrategy)
          (ca0 : CellularAutomaton),
        NewCellularAutomaton rt fresh width height strategy = some ca0 →
        ca0.AliveImage ≠ none ∧ ca0.DeadImage ≠ none) ∧
      ∃ g2, g.addGlider x y = some g2 ∧
        ImagesMatch g2.CA.Grid g2.CA.AliveImage g2.CA.DeadImage := by
  refine ⟨?_, ?_, ?_⟩
  · obtain ⟨g2, hrun, hg2, hcell⟩ := Update_spec ca hw hs
    have hall : ∀ row ∈ g2, ∀ c ∈ row,
        c.Image = if c.Alive then ca.AliveImage else ca.DeadImage := by
      intro row hrow c hc
      obtain ⟨i, j, hin, hij⟩ := cellAt_of_mem_shaped hg2 hrow hc
      rw [hcell i j hin] at hij
      cases hij
      rfl
    refine ⟨_, hrun, hall, ?_⟩
    intro ha hd row hrow c hc
    have := hall row hrow c hc
    show c.Image ≠ none
    rw [this]
    split_ifs
    · exact ha
    · exact hd
  · intro rt fresh width height strategy ca0 hnew
    rw [NewCellularAutomaton_eq] at hnew
    split_ifs at hnew
    cases hnew
    constructor <;> simp [createCellImage]
  · obtain ⟨grid, hrun, hshape, hcell⟩ := addGlider_total g x y hwg.1
    refine ⟨_, hrun, ?_⟩
    intro row hrow c hc
    obtain ⟨i, j, hij⟩ := cellAt_of_mem hrow hc
    rcases hcell i j with h | h
    · change cellAt grid i j = some c at hij
      rw [h] at hij
      obtain ⟨row0, hrow0, hc0⟩ := mem_of_cellAt hij
      exact hm row0 hrow0 c hc0
    · change cellAt grid i j = some c at hij
      rw [h] at hij
      cases hij
      rfl

theorem images_follow_state_witness :
    (∃ ca2, emptyGame.CA.Update = some ca2 ∧
        ImagesMatch ca2.Grid ca2.AliveImage ca2.DeadImage ∧
        (emptyGame.CA.AliveImage ≠ none → emptyGame.CA.DeadImage ≠ none →
          NoMissingImage ca2.Grid)) ∧
      (∀ (rt : Runtime) (fresh : Nat) (width height : Int) (strategy : UpdateStrategy)
          (ca0 : CellularAutomaton),
        NewCellularAutomaton rt fresh width height strategy = some ca0 →
        ca0.AliveImage ≠ none ∧ ca0.DeadImage ≠ none) ∧
      ∃ g2, (Game.mk blockCA).addGlider 1 1 = some g2 ∧
        ImagesMatch g2.CA.Grid g2.CA.AliveImage g2.CA.DeadImage :=
  images_follow_state emptyGame.CA (Game.mk blockCA) 1 1 (by decide) (by decide) (by decide)
    (by decide)

/-! ## The two loops of `InitializeGridRandomly` -/

theorem randomCell_spec (intn : Int → Nat → Int) (fresh : Nat) (seed : Int)
    (ca : CellularAutomaton) (g : List (List CellState))
    (hg : Shaped g ca.Width ca.Height) (k : Nat) (x y : Int)
    (hin : InBounds ca.Width ca.Height x y) :
    ∃ g2, CellularAutomaton.randomCell intn fresh seed ({ ca with Grid := g }, k) x y
        = some ({ ca with Grid := g2 }, k + 1) ∧ Shaped g2 ca.Width ca.Height ∧
      ∀ i j, cellAt g2 i j
        = if i = x ∧ j = y then some (drawnCell intn fresh seed k) else cellAt g i j := by
  obtain ⟨row, g2, hrow, hset, hg2, hshape, hcell⟩ :=
    write_spec hg x y hin (drawnCell intn fresh seed k)
  refine ⟨g2, ?_, hshape, hcell⟩
  unfold drawnCell at hset hg2
  simp only [CellularAutomaton.randomCell, hrow, hset, hg2, Option.bind_eq_bind,
    Option.some_bind, pure]

theorem randomRow_loop (intn : Int → Nat → Int) (fresh : Nat) (seed : Int)
    (ca : CellularAutomaton) (y : Int) (hy0 : 0 ≤ y) (hy1 : y < ca.Height) (k0 : Nat) :
    ∀ (n : Nat), (n : Int) ≤ ca.Width → ∀ g, Shaped g ca.Width ca.Height →
      ∃ g2, (List.range n).foldlM
          (fun st (x : Nat) => CellularAutomaton.randomCell intn fresh seed st x y)
          ({ ca with Grid := g }, k0) = some ({ ca with Grid := g2 }, k0 + n) ∧
        Shaped g2 ca.Width ca.Height ∧
        ∀ i j, cellAt g2 i j
          = if 0 ≤ i ∧ i < n ∧ j = y then some (drawnCell intn fresh seed (k0 + i.toNat))
            else cellAt g i j := by
  intro n
  induction n with
  | zero =>
    intro _ g hg
    refine ⟨g, by simp [pure], hg, ?_⟩
    intro i j
    have : ¬ (0 ≤ i ∧ i < ((0 : Nat) : Int) ∧ j = y) := by omega
    rw [if_neg this]
  | succ n ih =>
    intro hn g hg
    obtain ⟨g1, hrun, hg1, hcell1⟩ := ih (by omega) g hg
    obtain ⟨g2, hstep, hg2, hcell2⟩ :=
      randomCell_spec intn fresh seed ca g1 hg1 (k0 + n) (n : Int) y
        ⟨by omega, by omega, hy0, hy1⟩
    refine ⟨g2, ?_, hg2, ?_⟩
    · rw [List.range_succ, List.foldlM_append, hrun]
      simp only [Option.bind_eq_bind, Option.some_bind, List.foldlM_cons, List.foldlM_nil,
        hstep, pure]
      rfl
    · intro i j
      rw [hcell2, hcell1]
      by_cases h1 : i = (n : Int) ∧ j = y
      · obtain ⟨hi, hj⟩ := h1
        subst hi hj
        have : 0 ≤ (n : Int) ∧ (n : Int) < ((n + 1 : Nat) : Int) ∧ j = j := by omega
        simp [this]
      · rw [if_neg h1]
        by_cases h2 : 0 ≤ i ∧ i < (n : Int) ∧ j = y
        · have : 0 ≤ i ∧ i < ((n + 1 : Nat) : Int) ∧ j = y := by omega
          rw [if_pos h2, if_pos this]
        · have : ¬ (0 ≤ i ∧ i < ((n + 1 : Nat) : Int) ∧ j = y) := by omega
          rw [if_neg h2, if_neg this]

theorem randomRow_spec (intn : Int → Nat → Int) (fresh : Nat) (seed : Int)
    (ca : CellularAutomaton) (y : Int) (hy0 : 0 ≤ y) (hy1 : y < ca.Height) (k0 : Nat)
    (g : List (List CellState)) (hg : Shaped g ca.Width ca.Height) :
    ∃ g2, CellularAutomaton.randomRow intn fresh seed ({ ca with Grid := g }, k0) y
        = some ({ ca with Grid := g2 }, k0 + ca.Width.toNat) ∧
      Shaped g2 ca.Width ca.Height ∧
      ∀ i j, cellAt g2 i j
        = if 0 ≤ i ∧ i < ca.Width ∧ j = y
          then some (drawnCell intn fresh seed (k0 + i.toNat)) else cellAt g i j := by
  have hW : 0 ≤ ca.Width := shaped_width_nonneg hg (by omega)
  obtain ⟨g2, hrun, hg2, hcell⟩ :=
    randomRow_loop intn fresh seed ca y hy0 hy1 k0 ca.Width.toNat (by omega) g hg
  refine ⟨g2, hrun, hg2, ?_⟩
  intro i j
  rw [hcell, Int.toNat_of_nonneg hW]

theorem random_loop (intn : Int → Nat → Int) (fresh : Nat) (seed : Int)
    (ca : CellularAutomaton) :
    ∀ (m : Nat), (m : Int) ≤ ca.Height → ∀ g, Shaped g ca.Width ca.Height →
      ∃ g2, (List.range m).foldlM
          (fun st (y : Nat) => CellularAutomaton.randomRow intn fresh seed st y)
          ({ ca with Grid := g }, 0) = some ({ ca with Grid := g2 }, m * ca.Width.toNat) ∧
        Shaped g2 ca.Width ca.Height ∧
        ∀ i j, cellAt g2 i j
          = if 0 ≤ i ∧ i < ca.Width ∧ 0 ≤ j ∧ j < m
            then some (drawnCell intn fresh seed (j.toNat * ca.Width.toNat + i.toNat))
            else cellAt g i j := by
  intro m
  induction m with
  | zero =>
    intro _ g hg
    refine ⟨g, by simp [pure], hg, ?_⟩
    intro i j
    have : ¬ (0 ≤ i ∧ i < ca.Width ∧ 0 ≤ j ∧ j < ((0 : Nat) : Int)) := by omega
    rw [if_neg this]
  | succ m ih =>
    intro hm g hg
    obtain ⟨g1, hrun, hg1, hcell1⟩ := ih (by omega) g hg
    obtain ⟨g2, hstep, hg2, hcell2⟩ :=
      randomRow_spec intn fresh seed ca (m : Int) (by omega) (by omega)
        (m * ca.Width.toNat) g1 hg1
    refine ⟨g2, ?_, hg2, ?_⟩
    · rw [List.range_succ, List.foldlM_append, hrun]
      simp only [Option.bind_eq_bind, Option.some_bind, List.foldlM_cons, List.foldlM_nil,
        hstep, pure, Nat.succ_mul]
    · intro i j
      rw [hcell2, hcell1]
      by_cases h1 : 0 ≤ i ∧ i < ca.Width ∧ j = (m : Int)
      · have : 0 ≤ i ∧ i < ca.Width ∧ 0 ≤ j ∧ j < ((m + 1 : Nat) : Int) := by omega
        rw [if_pos h1, if_pos this, h1.2.2, Int.toNat_ofNat]
      · rw [if_neg h1]
        by_cases h2 : 0 ≤ i ∧ i < ca.Width ∧ 0 ≤ j ∧ j < (m : Int)
        · have : 0 ≤ i ∧ i < ca.Width ∧ 0 ≤ j ∧ j < ((m + 1 : Nat) : Int) := by omega
          rw [if_pos h2, if_pos this]
        · have : ¬ (0 ≤ i ∧ i < ca.Width ∧ 0 ≤ j ∧ j < ((m + 1 : Nat) : Int)) := by omega
          rw [if_neg h2, if_neg this]

theorem toNat_draw (W x y : Int) (hW : 0 ≤ W) (hx : 0 ≤ x) (hy : 0 ≤ y) :
    y.toNat * W.toNat + x.toNat = (y * W + x).toNat := by
  obtain ⟨w, rfl⟩ := Int.eq_ofNat_of_zero_le hW
  obtain ⟨a, rfl⟩ := Int.eq_ofNat_of_zero_le hx
  obtain ⟨b, rfl⟩ := Int.eq_ofNat_of_zero_le hy
  simp only [Int.toNat_ofNat]
  have : ((b : Int) * (w : Int) + (a : Int)) = ((b * w + a : Nat) : Int) := by push_cast; rfl
  rw [this, Int.toNat_ofNat]

/-- Random initialisation of an automaton whose `Grid` has `Height` rows of
`Width` cells: the call returns, only `Grid` changes, it keeps its shape, and
the cell `(x, y)` is the one written with the draw number `y * Width + x`. -/
theorem InitializeGridRandomly_spec (intn : Int → Nat → Int) (fresh : Nat) (seed : Int)
    (ca : CellularAutomaton) (hg : Shaped ca.Grid ca.Width ca.Height) :
    ∃ g2, CellularAutomaton.InitializeGridRandomly intn fresh ca seed
        = some { ca with Grid := g2 } ∧ Shaped g2 ca.Width ca.Height ∧
      ∀ x y, InBounds ca.Width ca.Height x y →
        cellAt g2 x y = some (drawnCell intn fresh seed (y * ca.Width + x).toNat) := by
  have hH : 0 ≤ ca.Height := by
    have := hg.1
    omega
  obtain ⟨g2, hrun, hg2, hcell⟩ :=
    random_loop intn fresh seed ca ca.Height.toNat (by omega) ca.Grid hg
  refine ⟨g2, ?_, hg2, ?_⟩
  · unfold CellularAutomaton.InitializeGridRandomly
    have hca : ({ ca with Grid := ca.Grid } : CellularAutomaton) = ca := rfl
    rw [hca] at hrun
    rw [hrun]
    rfl
  · intro x y hin
    have hW : 0 ≤ ca.Width := by
      have := hin.1
      have := hin.2.1
      omega
    have hin2 : 0 ≤ x ∧ x < ca.Width ∧ 0 ≤ y ∧ y < ca.Height := hin
    rw [hcell, Int.toNat_of_nonneg hH, if_pos hin2,
      toNat_draw ca.Width x y hW hin.1 hin.2.2.1]

/-! ## Determinism of seeded runs -/

theorem nextAlive_congr {g1 g2 : List (List CellState)}
    (h : ∀ x y, aliveAt g1 x y = aliveAt g2 x y) (x y : Int) :
    nextAlive g1 x y = nextAlive g2 x y := by
  simp only [nextAlive, neighborSum, aliveNum, h]

/-- Two well-shaped automatons of the same dimensions with the same alive cells
have the same alive cells after `n` generations each. -/
theorem UpdateN_agree (n : Nat) :
    ∀ ca1 ca2 : CellularAutomaton, WellShaped ca1 → WellShaped ca2 →
      ca1.Strategy = UpdateStrategy.GameOfLifeStrategy →
      ca2.Strategy = UpdateStrategy.GameOfLifeStrategy →
      ca1.Width = ca2.Width → ca1.Height = ca2.Height →
      (∀ x y, aliveAt ca1.Grid x y = aliveAt ca2.Grid x y) →
      ∃ b1 b2, ca1.UpdateN n = some b1 ∧ ca2.UpdateN n = some b2 ∧
        Shaped b1.Grid ca1.Width ca1.Height ∧ Shaped b2.Grid ca1.Width ca1.Height ∧
        ∀ x y, aliveAt b1.Grid x y = aliveAt b2.Grid x y := by
  induction n with
  | zero =>
    intro ca1 ca2 hw1 hw2 _ _ hW hH h
    refine ⟨ca1, ca2, rfl, rfl, hw1.1, ?_, h⟩
    rw [hW, hH]
    exact hw2.1
  | succ n ih =>
    intro ca1 ca2 hw1 hw2 hs1 hs2 hW hH h
    obtain ⟨a1, hrun1, hwa1, hW1, hH1, hsa1, halive1⟩ := Update_alive ca1 hw1 hs1
    obtain ⟨a2, hrun2, hwa2, hW2, hH2, hsa2, halive2⟩ := Update_alive ca2 hw2 hs2
    have hnext : ∀ x y, aliveAt a1.Grid x y = aliveAt a2.Grid x y := by
      intro x y
      rw [halive1, halive2, nextAlive_congr h, hW, hH]
    obtain ⟨b1, b2, hb1, hb2, hshape1, hshape2, hb⟩ :=
      ih a1 a2 hwa1 hwa2 (hsa1.trans hs1) (hsa2.trans hs2)
        (by rw [hW1, hW2, hW]) (by rw [hH1, hH2, hH]) hnext
    rw [hW1, hH1] at hshape1 hshape2
    refine ⟨b1, b2, ?_, ?_, hshape1, hshape2, hb⟩
    · simp only [CellularAutomaton.UpdateN, hrun1, Option.bind_eq_bind, Option.some_bind, hb1]
    · simp only [CellularAutomaton.UpdateN, hrun2, Option.bind_eq_bind, Option.some_bind, hb2]

theorem alive_states_eq {g1 g2 : List (List CellState)} {W H : Int}
    (h1 : Shaped g1 W H) (h2 : Shaped g2 W H)
    (h : ∀ x y, aliveAt g1 x y = aliveAt g2 x y) (x y : Int) :
    (cellAt g1 x y).map CellState.Alive = (cellAt g2 x y).map CellState.Alive := by
  by_cases hin : InBounds W H x y
  · obtain ⟨c1, hc1⟩ := cellAt_inside h1 x y hin
    obtain ⟨c2, hc2⟩ := cellAt_inside h2 x y hin
    have := h x y
    simp only [aliveAt, hc1, hc2] at this
    simp [hc1, hc2, this]
  · rw [cellAt_outside h1 x y hin, cellAt_outside h2 x y hin]

/-- C13: with the pseudorandom source a function `intn` of the seed and the draw
number, two well-shaped automatons of the same dimensions using the Game of Life
rule, whatever their grids and buffers hold, are both initialised by
`InitializeGridRandomly(seed)` with the cell `(x, y)` alive exactly when the draw
number `y * Width + x` is `1`, and after `n` calls of `CellularAutomaton.Update`
each they have the same `Alive` state in every cell. -/
theorem seeded_runs_agree (intn : Int → Nat → Int) (seed : Int) (fresh1 fresh2 : Nat)
    (ca1 ca2 : CellularAutomaton) (n : Nat) (hw1 : WellShaped ca1) (hw2 : WellShaped ca2)
    (hs1 : ca1.Strategy = UpdateStrategy.GameOfLifeStrategy)
    (hs2 : ca2.Strategy = UpdateStrategy.GameOfLifeStrategy)
    (hW : ca1.Width = ca2.Width) (hH : ca1.Height = ca2.Height) :
    ∃ a1 a2 b1 b2,
      CellularAutomaton.InitializeGridRandomly intn fresh1 ca1 seed = some a1 ∧
      CellularAutomaton.InitializeGridRandomly intn fresh2 ca2 seed = some a2 ∧
      (∀ x y, InBounds ca1.Width ca1.Height x y →
        (cellAt a1.Grid x y).map CellState.Alive
            = some (intn seed (y * ca1.Width + x).toNat == 1) ∧
          (cellAt a2.Grid x y).map CellState.Alive
            = some (intn seed (y * ca1.Width + x).toNat == 1)) ∧
      a1.UpdateN n = some b1 ∧ a2.UpdateN n = some b2 ∧
      ∀ x y, (cellAt b1.Grid x y).map CellState.Alive
        = (cellAt b2.Grid x y).map CellState.Alive := by
  obtain ⟨g1, hinit1, hg1, hcell1⟩ := InitializeGridRandomly_spec intn fresh1 seed ca1 hw1.1
  obtain ⟨g2, hinit2, hg2, hcell2⟩ := InitializeGridRandomly_spec intn fresh2 seed ca2 hw2.1
  have hg2b : Shaped g2 ca1.Width ca1.Height := by
    rw [hW, hH]
    exact hg2
  have hsame : ∀ x y, aliveAt g1 x y = aliveAt g2 x y := by
    intro x y
    by_cases hin : InBounds ca1.Width ca1.Height x y
    · have hin2 : InBounds ca2.Width ca2.Height x y := by
        rw [← hW, ← hH]
        exact hin
      simp only [aliveAt, hcell1 x y hin, hcell2 x y hin2, drawnCell, hW]
    · rw [aliveAt_outside hg1 x y hin, aliveAt_outside hg2b x y hin]
  obtain ⟨b1, b2, hb1, hb2, hshape1, hshape2, hb⟩ :=
    UpdateN_agree n { ca1 with Grid := g1 } { ca2 with Grid := g2 } ⟨hg1, hw1.2⟩
      ⟨hg2, hw2.2⟩ hs1 hs2 hW hH hsame
  refine ⟨_, _, b1, b2, hinit1, hinit2, ?_, hb1, hb2, alive_states_eq hshape1 hshape2 hb⟩
  intro x y hin
  have hin2 : InBounds ca2.Width ca2.Height x y := by
    rw [← hW, ← hH]
    exact hin
  constructor
  · simp [hcell1 x y hin, drawnCell]
  · simp [hcell2 x y hin2, drawnCell, hW]

theorem seeded_runs_agree_witness :
    ∃ a1 a2 b1 b2,
      CellularAutomaton.InitializeGridRandomly sampleIntn 0 blockCA 4 = some a1 ∧
      CellularAutomaton.InitializeGridRandomly sampleIntn 50
        { blockCA with Grid := blockCA.Buffer } 4 = some a2 ∧
      (∀ x y, InBounds blockCA.Width blockCA.Height x y →
        (cellAt a1.Grid x y).map CellState.Alive
            = some (sampleIntn 4 (y * blockCA.Width + x).toNat == 1) ∧
          (cellAt a2.Grid x y).map CellState.Alive
            = some (sampleIntn 4 (y * blockCA.Width + x).toNat == 1)) ∧
      a1.UpdateN 3 = some b1 ∧ a2.UpdateN 3 = some b2 ∧
      ∀ x y, (cellAt b1.Grid x y).map CellState.Alive
        = (cellAt b2.Grid x y).map CellState.Alive :=
  seeded_runs_agree sampleIntn 4 0 50 blockCA { blockCA with Grid := blockCA.Buffer } 3
    (by decide) (by decide) (by decide) (by decide) (by decide) (by decide)

/-! ## The step as a sequence of calls -/

theorem updateCell_width {c c2 : CellularAutomaton} {x y : Int}
    (h : c.updateCell x y = some c2) : c2.Width = c.Width := by
  simp only [CellularAutomaton.updateCell, Option.bind_eq_bind, Option.bind_eq_some,
    pure, Option.some.injEq] at h
  obtain ⟨_, _, _, _, _, _, _, _, h⟩ := h
  rw [← h]

theorem updateCells_width (l : List (Int × Int)) :
    ∀ c c2 : CellularAutomaton,
      l.foldlM (fun c p => CellularAutomaton.updateCell c p.1 p.2) c = some c2 →
      c2.Width = c.Width := by
  induction l with
  | nil =>
    intro c c2 h
    simp only [List.foldlM_nil, pure, Option.some.injEq] at h
    rw [h]
  | cons p l ih =>
    intro c c2 h
    rw [List.foldlM_cons] at h
    cases h1 : c.updateCell p.1 p.2 with
    | none => simp [h1] at h
    | some c1 =>
      simp only [h1, Option.bind_eq_bind, Option.some_bind] at h
      rw [ih c1 c2 h, updateCell_width h1]

theorem updateRow_calls (c : CellularAutomaton) (y : Int) :
    c.updateRow y
      = ((List.range c.Width.toNat).map fun (x : Nat) => ((x : Int), y)).foldlM
          (fun c p => CellularAutomaton.updateCell c p.1 p.2) c := by
  unfold CellularAutomaton.updateRow
  rw [List.foldlM_map]

theorem updateRows_calls (W : Int) (ys : List Nat) :
    ∀ c : CellularAutomaton, c.Width = W →
      ys.foldlM (fun c (y : Nat) => CellularAutomaton.updateRow c y) c
        = (ys.flatMap fun (y : Nat) =>
            (List.range W.toNat).map fun (x : Nat) => ((x : Int), (y : Int))).foldlM
          (fun c p => CellularAutomaton.updateCell c p.1 p.2) c := by
  induction ys with
  | nil =>
    intro c _
    rfl
  | cons y ys ih =>
    intro c hc
    rw [List.foldlM_cons, List.flatMap_cons, List.foldlM_append, updateRow_calls, hc]
    cases h1 : ((List.range W.toNat).map fun (x : Nat) => ((x : Int), (y : Int))).foldlM
        (fun c p => CellularAutomaton.updateCell c p.1 p.2) c with
    | none => rfl
    | some c1 =>
      simp only [Option.bind_eq_bind, Option.some_bind]
      exact ih c1 ((updateCells_width _ c c1 h1).trans hc)

/-- The method `CellularAutomaton.Update` is the sequence of the cell updates at
the coordinates of `updateCalls`, followed by the exchange of the buffers. -/
theorem Update_calls (ca : CellularAutomaton) :
    ca.Update
      = (ca.updateCalls.foldlM (fun c p => CellularAutomaton.updateCell c p.1 p.2) ca).map
          CellularAutomaton.swap := by
  unfold CellularAutomaton.Update CellularAutomaton.updateCalls
  rw [updateRows_calls ca.Width (List.range ca.Height.toNat) ca rfl]
  cases ((List.range ca.Height.toNat).flatMap fun (y : Nat) =>
      (List.range ca.Width.toNat).map fun (x : Nat) => ((x : Int), (y : Int))).foldlM
    (fun c p => CellularAutomaton.updateCell c p.1 p.2) ca <;> rfl

theorem updateCalls_inBounds (ca : CellularAutomaton) :
    ∀ p ∈ ca.updateCalls, InBounds ca.Width ca.Height p.1 p.2 := by
  intro p hp
  unfold CellularAutomaton.updateCalls at hp
  simp only [List.mem_flatMap, List.mem_map, List.mem_range] at hp
  obtain ⟨y, hy, x, hx, rfl⟩ := hp
  unfold InBounds
  simp only
  omega

/-- C12: on an automaton with `Width, Height ≥ 0` whose `Grid` and `Buffer` have
`Height` rows of `Width` cells and which uses the Game of Life rule,
`CellularAutomaton.Update` returns without panic; `countAliveNeighbors` returns
at every pair of coordinates, in or out of bounds, and its condition reads no
cell at a position out of bounds; and the calls `Update(ca, x, y)` of the step
are those at the coordinates of `updateCalls`, all of them in bounds. -/
theorem update_cannot_fail (ca : CellularAutomaton) (hw : WellShaped ca)
    (_hW : 0 ≤ ca.Width) (_hH : 0 ≤ ca.Height)
    (hs : ca.Strategy = UpdateStrategy.GameOfLifeStrategy) :
    (∃ ca2, ca.Update = some ca2) ∧
      (∀ x y, ∃ n, countAliveNeighbors ca x y = some n) ∧
      (∀ (g : List (List CellState)) nx ny, ¬ InBounds ca.Width ca.Height nx ny →
        neighborAlive { ca with Grid := g } nx ny = some false) ∧
      ca.Update
        = (ca.updateCalls.foldlM (fun c p => CellularAutomaton.updateCell c p.1 p.2) ca).map
            CellularAutomaton.swap ∧
      ∀ p ∈ ca.updateCalls, InBounds ca.Width ca.Height p.1 p.2 := by
  obtain ⟨g2, hrun, _, _⟩ := Update_spec ca hw hs
  refine ⟨⟨_, hrun⟩, fun x y => ⟨_, countAliveNeighbors_eq hw.1 x y⟩, ?_, Update_calls ca,
    updateCalls_inBounds ca⟩
  intro g nx ny hout
  have hc : ¬ (nx ≥ 0 ∧ ny ≥ 0 ∧ nx < ca.Width ∧ ny < ca.Height) := by
    intro hc
    exact hout ⟨hc.1, hc.2.2.1, hc.2.1, hc.2.2.2⟩
  unfold neighborAlive
  rw [if_neg hc]

theorem update_cannot_fail_witness :
    (∃ ca2, blinkerCA.Update = some ca2) ∧
      (∀ x y, ∃ n, countAliveNeighbors blinkerCA x y = some n) ∧
      (∀ (g : List (List CellState)) nx ny, ¬ InBounds blinkerCA.Width blinkerCA.Height nx ny →
        neighborAlive { blinkerCA with Grid := g } nx ny = some false) ∧
      blinkerCA.Update
        = (blinkerCA.updateCalls.foldlM
            (fun c p => CellularAutomaton.updateCell c p.1 p.2) blinkerCA).map
            CellularAutomaton.swap ∧
      ∀ p ∈ blinkerCA.updateCalls, InBounds blinkerCA.Width blinkerCA.Height p.1 p.2 :=
  update_cannot_fail blinkerCA (by decide) (by decide) (by decide) (by decide)

/-! ## The shape invariant -/

/-- C15: the shape invariant, `Width` and `Height` equal to the construction values
and `Grid` and `Buffer` of `Height` rows of `Width` cells, holds for every
automaton that `NewCellularAutomaton` returns for positive dimensions, and it
returns one whenever `make` accepts the two lengths; each of
`CellularAutomaton.Update` (with the Game of Life rule),
`InitializeGridRandomly` and `addGlider` returns on an automaton that satisfies
the invariant and leaves an automaton that satisfies it. -/
theorem shape_invariant (rt : Runtime) (fresh : Nat) (width height : Int)
    (strategy : UpdateStrategy) (hw : 0 < width) (hh : 0 < height) :
    (∀ ca, NewCellularAutomaton rt fresh width height strategy = some ca →
        WellShaped ca ∧ ca.Width = width ∧ ca.Height = height) ∧
      ((rt.cellBytes : Int) * width ≤ (rt.maxAlloc : Int) →
        (rt.sliceBytes : Int) * height ≤ (rt.maxAlloc : Int) →
        ∃ ca, NewCellularAutomaton rt fresh width height strategy = some ca) ∧
      ∀ c : CellularAutomaton, WellShaped c → c.Width = width → c.Height = height →
        (c.Strategy = UpdateStrategy.GameOfLifeStrategy →
          ∃ c2, c.Update = some c2 ∧
            WellShaped c2 ∧ c2.Width = width ∧ c2.Height = height) ∧
        (∀ (intn : Int → Nat → Int) (k : Nat) (seed : Int),
          ∃ c2, CellularAutomaton.InitializeGridRandomly intn k c seed = some c2 ∧
            WellShaped c2 ∧ c2.Width = width ∧ c2.Height = height) ∧
        (∀ x y : Int,
          ∃ g2, (Game.mk c).addGlider x y = some g2 ∧
            WellShaped g2.CA ∧ g2.CA.Width = width ∧ g2.CA.Height = height) := by
  have hshape := shaped_replicate width height (by omega) (by omega) (CellState.mk false none)
  refine ⟨?_, ?_, ?_⟩
  · intro ca hnew
    rw [NewCellularAutomaton_eq] at hnew
    split_ifs at hnew
    cases hnew
    exact ⟨⟨hshape, hshape⟩, rfl, rfl⟩
  · intro hwsize hhsize
    have hc : ¬ (height < 0 ∨ (rt.maxAlloc : Int) < (rt.sliceBytes : Int) * height ∨
        (0 < height ∧
          (width < 0 ∨ (rt.maxAlloc : Int) < (rt.cellBytes : Int) * width))) := by
      omega
    rw [NewCellularAutomaton_eq, if_neg hc]
    exact ⟨_, rfl⟩
  · intro c hc hcw hch
    refine ⟨?_, ?_, ?_⟩
    · intro hs
      obtain ⟨g2, hrun, hg2, _⟩ := Update_spec c hc hs
      exact ⟨_, hrun, ⟨hg2, hc.1⟩, hcw, hch⟩
    · intro intn k seed
      obtain ⟨g2, hrun, hg2, _⟩ := InitializeGridRandomly_spec intn k seed c hc.1
      exact ⟨_, hrun, ⟨hg2, hc.2⟩, hcw, hch⟩
    · intro x y
      obtain ⟨grid, hrun, hshape, _⟩ := addGlider_total (Game.mk c) x y hc.1
      exact ⟨_, hrun, ⟨hshape, hc.2⟩, hcw, hch⟩

theorem shape_invariant_witness :
    (∀ ca, NewCellularAutomaton amd64 0 3 2 UpdateStrategy.GameOfLifeStrategy = some ca →
        WellShaped ca ∧ ca.Width = 3 ∧ ca.Height = 2) ∧
      (∃ ca, NewCellularAutomaton amd64 0 3 2 UpdateStrategy.GameOfLifeStrategy = some ca) ∧
      (deadCA.Strategy = UpdateStrategy.GameOfLifeStrategy →
        ∃ c2, deadCA.Update = some c2 ∧ WellShaped c2 ∧ c2.Width = 3 ∧ c2.Height = 2) ∧
      (∀ (intn : Int → Nat → Int) (k : Nat) (seed : Int),
        ∃ c2, CellularAutomaton.InitializeGridRandomly intn k deadCA seed = some c2 ∧
          WellShaped c2 ∧ c2.Width = 3 ∧ c2.Height = 2) ∧
      (∀ x y : Int,
        ∃ g2, (Game.mk deadCA).addGlider x y = some g2 ∧
          WellShaped g2.CA ∧ g2.CA.Width = 3 ∧ g2.CA.Height = 2) :=
  ⟨(shape_invariant amd64 0 3 2 UpdateStrategy.GameOfLifeStrategy (by decide) (by decide)).1,
    (shape_invariant amd64 0 3 2 UpdateStrategy.GameOfLifeStrategy (by decide)
      (by decide)).2.1 (by decide) (by decide),
    (shape_invariant amd64 0 3 2 UpdateStrategy.GameOfLifeStrategy (by decide)
      (by decide)).2.2 deadCA (by decide) (by decide) (by decide)⟩

/-! ## Mirror symmetry -/

theorem mirrorGrid_shaped {g : List (List CellState)} {W H : Int} (h : Shaped g W H) :
    Shaped (mirrorGrid g) W H := by
  unfold mirrorGrid
  constructor
  · simpa using h.1
  · intro row hrow
    obtain ⟨r, hr, rfl⟩ := List.mem_map.1 hrow
    simpa using h.2 r hr

theorem index_reverse {α : Type} (row : List α) (x : Int) (h0 : 0 ≤ x)
    (h1 : x < row.length) :
    index row.reverse x = index row ((row.length : Int) - 1 - x) := by
  have hlt : x.toNat < row.length := by omega
  have he : ((row.length : Int) - 1 - x).toNat = row.length - 1 - x.toNat := by omega
  rw [index_eq_getElem? _ x h0, index_eq_getElem? _ _ (by omega), List.getElem?_reverse hlt, he]

/-- The cell `(x, y)` of the mirrored grid is the cell `(W - 1 - x, y)` of the
grid. -/
theorem cellAt_mirrorGrid {g : List (List CellState)} {W H : Int} (h : Shaped g W H)
    (x y : Int) : cellAt (mirrorGrid g) x y = cellAt g (W - 1 - x) y := by
  by_cases hin : InBounds W H x y
  · obtain ⟨hx0, hx1, hy0, hy1⟩ := hin
    obtain ⟨row, hrow, hmem⟩ := index_some g y hy0 (by rw [h.1]; exact hy1)
    have hlen := h.2 row hmem
    have hrow2 : index (mirrorGrid g) y = some row.reverse := by
      rw [index_eq_getElem? _ y hy0] at hrow ⊢
      simp [mirrorGrid, List.getElem?_map, hrow]
    simp only [cellAt, hrow, hrow2, Option.bind_eq_bind, Option.some_bind]
    rw [index_reverse row x hx0 (by omega), hlen]
  · have hout : ¬ InBounds W H (W - 1 - x) y := by
      unfold InBounds at hin ⊢
      omega
    rw [cellAt_outside (mirrorGrid_shaped h) x y hin, cellAt_outside h _ y hout]

theorem aliveNum_mirrorGrid {g : List (List CellState)} {W H : Int} (h : Shaped g W H)
    (x y : Int) : aliveNum (mirrorGrid g) x y = aliveNum g (W - 1 - x) y := by
  simp only [aliveNum, aliveAt, cellAt_mirrorGrid h]

theorem nextAlive_mirrorGrid {g : List (List CellState)} {W H : Int} (h : Shaped g W H)
    (x y : Int) : nextAlive (mirrorGrid g) x y = nextAlive g (W - 1 - x) y := by
  have e1 : W - 1 - (x + -1) = W - 1 - x + 1 := by ring
  have e2 : W - 1 - (x + 0) = W - 1 - x + 0 := by ring
  have e3 : W - 1 - (x + 1) = W - 1 - x + -1 := by ring
  have hsum : neighborSum (mirrorGrid g) x y = neighborSum g (W - 1 - x) y := by
    simp only [neighborSum, aliveNum_mirrorGrid h, e1, e2, e3]
    ring
  have ha : aliveAt (mirrorGrid g) x y = aliveAt g (W - 1 - x) y := by
    simp only [aliveAt, cellAt_mirrorGrid h]
  simp only [nextAlive, hsum, ha]

/-- C17: on a well-shaped automaton using the Game of Life rule, with the mirror
of a grid the grid whose cell `(x, y)` is the cell `(Width - 1 - x, y)`, the
step of the mirrored automaton and the step of the automaton both return, and
the `Alive` state of every cell of the first result is that of the mirror of the
second. -/
theorem update_mirror (ca : CellularAutomaton) (hw : WellShaped ca)
    (hs : ca.Strategy = UpdateStrategy.GameOfLifeStrategy) :
    (∀ x y, cellAt ca.mirror.Grid x y = cellAt ca.Grid (ca.Width - 1 - x) y) ∧
      ∃ a b, ca.mirror.Update = some a ∧ ca.Update = some b ∧
        (∀ x y, cellAt b.mirror.Grid x y = cellAt b.Grid (ca.Width - 1 - x) y) ∧
        ∀ x y, (cellAt a.Grid x y).map CellState.Alive
          = (cellAt b.mirror.Grid x y).map CellState.Alive := by
  have hwm : WellShaped ca.mirror := ⟨mirrorGrid_shaped hw.1, hw.2⟩
  obtain ⟨a, hruna, hwa, hWa, hHa, _, halivea⟩ := Update_alive ca.mirror hwm hs
  obtain ⟨b, hrunb, hwb, hWb, hHb, _, haliveb⟩ := Update_alive ca hw hs
  have hbshape : Shaped b.Grid ca.Width ca.Height := by
    rw [← hWb, ← hHb]
    exact hwb.1
  have hashape : Shaped a.Grid ca.Width ca.Height := by
    have := hwa.1
    rw [hWa, hHa] at this
    exact this
  refine ⟨cellAt_mirrorGrid hw.1, a, b, hruna, hrunb, cellAt_mirrorGrid hbshape, ?_⟩
  apply alive_states_eq hashape (mirrorGrid_shaped hbshape)
  intro x y
  have hb : aliveAt (mirrorGrid b.Grid) x y = aliveAt b.Grid (ca.Width - 1 - x) y := by
    simp only [aliveAt, cellAt_mirrorGrid hbshape]
  have hin : InBounds ca.Width ca.Height x y ↔ InBounds ca.Width ca.Height (ca.Width - 1 - x) y := by
    unfold InBounds
    omega
  show aliveAt a.Grid x y = aliveAt (mirrorGrid b.Grid) x y
  rw [hb, halivea, haliveb]
  show (decide (InBounds ca.Width ca.Height x y) && nextAlive (mirrorGrid ca.Grid) x y) = _
  rw [nextAlive_mirrorGrid hw.1, decide_eq_decide.2 hin]

theorem update_mirror_witness :
    (∀ x y, cellAt blinkerCA.mirror.Grid x y
        = cellAt blinkerCA.Grid (blinkerCA.Width - 1 - x) y) ∧
      ∃ a b, blinkerCA.mirror.Update = some a ∧ blinkerCA.Update = some b ∧
        (∀ x y, cellAt b.mirror.Grid x y = cellAt b.Grid (blinkerCA.Width - 1 - x) y) ∧
        ∀ x y, (cellAt a.Grid x y).map CellState.Alive
          = (cellAt b.mirror.Grid x y).map CellState.Alive :=
  update_mirror blinkerCA (by decide) (by decide)

/-! ## The glider on every grid -/

theorem mem_shift (d : Int × Int) (S : List (Int × Int)) (a b : Int) :
    (a, b) ∈ shift d S ↔ (a - d.1, b - d.2) ∈ S := by
  unfold shift
  rw [List.mem_map]
  constructor
  · rintro ⟨p, hp, heq⟩
    have h1 : p.1 + d.1 = a := congrArg Prod.fst heq
    have h2 : p.2 + d.2 = b := congrArg Prod.snd heq
    have : (a - d.1, b - d.2) = p := by
      rw [← h1, ← h2]
      simp
    rw [this]
    exact hp
  · intro h
    exact ⟨(a - d.1, b - d.2), h, by simp⟩

theorem setNum_shift (d : Int × Int) (S : List (Int × Int)) (a b : Int) :
    setNum (shift d S) a b = setNum S (a - d.1) (b - d.2) := by
  unfold setNum
  by_cases h : (a - d.1, b - d.2) ∈ S
  · rw [if_pos h, if_pos ((mem_shift d S a b).2 h)]
  · rw [if_neg h, if_neg (fun hm => h ((mem_shift d S a b).1 hm))]

theorem setNext_shift (d : Int × Int) (S : List (Int × Int)) (a b : Int) :
    setNext (shift d S) a b ↔ setNext S (a - d.1) (b - d.2) := by
  have e1 : a + -1 - d.1 = a - d.1 + -1 := by ring
  have e2 : a + 0 - d.1 = a - d.1 + 0 := by ring
  have e3 : a + 1 - d.1 = a - d.1 + 1 := by ring
  have f1 : b + -1 - d.2 = b - d.2 + -1 := by ring
  have f2 : b + 0 - d.2 = b - d.2 + 0 := by ring
  have f3 : b + 1 - d.2 = b - d.2 + 1 := by ring
  have hsum : setSum (shift d S) a b = setSum S (a - d.1) (b - d.2) := by
    simp only [setSum, setNum_shift, e1, e2, e3, f1, f2, f3]
  unfold setNext
  rw [hsum, mem_shift]

/-- A position that the transition law makes alive has a listed position among
its eight neighbours. -/
theorem setNext_near (S : List (Int × Int)) (a b : Int) (h : setNext S a b) :
    ∃ p ∈ S, a - 1 ≤ p.1 ∧ p.1 ≤ a + 1 ∧ b - 1 ≤ p.2 ∧ p.2 ≤ b + 1 := by
  by_contra hno
  have hz : ∀ u v : Int, a - 1 ≤ u → u ≤ a + 1 → b - 1 ≤ v → v ≤ b + 1 →
      setNum S u v = 0 := by
    intro u v h1 h2 h3 h4
    unfold setNum
    rw [if_neg]
    intro hm
    exact hno ⟨(u, v), hm, h1, h2, h3, h4⟩
  have hsum : setSum S a b = 0 := by
    unfold setSum
    rw [hz (a + -1) (b + -1) (by omega) (by omega) (by omega) (by omega),
      hz (a + 0) (b + -1) (by omega) (by omega) (by omega) (by omega),
      hz (a + 1) (b + -1) (by omega) (by omega) (by omega) (by omega),
      hz (a + -1) (b + 0) (by omega) (by omega) (by omega) (by omega),
      hz (a + 1) (b + 0) (by omega) (by omega) (by omega) (by omega),
      hz (a + -1) (b + 1) (by omega) (by omega) (by omega) (by omega),
      hz (a + 0) (b + 1) (by omega) (by omega) (by omega) (by omega),
      hz (a + 1) (b + 1) (by omega) (by omega) (by omega) (by omega)]
    rfl
  unfold setNext at h
  rw [hsum] at h
  omega

/-- The transition law on the unbounded plane, from its check on a grid that
holds the pattern with a margin of one cell. -/
theorem plane_rule (N : Nat) (S T : List (Int × Int))
    (hS : ∀ p ∈ S, 1 ≤ p.1 ∧ p.1 + 1 < N ∧ 1 ≤ p.2 ∧ p.2 + 1 < N)
    (hgrid : ∀ x y, (InBounds N N x y ∧ setNext S x y) ↔ (x, y) ∈ T) :
    ∀ a b, setNext S a b ↔ (a, b) ∈ T := by
  intro a b
  constructor
  · intro h
    obtain ⟨p, hp, h1, h2, h3, h4⟩ := setNext_near S a b h
    have := hS p hp
    exact (hgrid a b).1 ⟨⟨by omega, by omega, by omega, by omega⟩, h⟩
  · intro h
    exact ((hgrid a b).2 h).2

/-- The transition law for a pattern moved to any place of any grid that holds
its successor. -/
theorem shift_rule (W H : Int) (d : Int × Int) (S T : List (Int × Int))
    (hplane : ∀ a b, setNext S a b ↔ (a, b) ∈ T)
    (hT : ∀ p ∈ T, InBounds W H (p.1 + d.1) (p.2 + d.2)) :
    ∀ i j, (InBounds W H i j ∧ setNext (shift d S) i j) ↔ (i, j) ∈ shift d T := by
  intro i j
  rw [setNext_shift, hplane, mem_shift]
  constructor
  · intro h
    exact h.2
  · intro h
    refine ⟨?_, h⟩
    have := hT _ h
    simpa using this

theorem aliveExactly_congr {g : List (List CellState)} {S T : List (Int × Int)}
    (h : AliveExactly g S) (hST : ∀ a b, (a, b) ∈ S ↔ (a, b) ∈ T) : AliveExactly g T := by
  intro x y
  rw [h x y, hST]

theorem glider_plane1 : ∀ a b, setNext (gliderCoords 2 2) a b
    ↔ (a, b) ∈ [(3, 2), (1, 3), (2, 3), (2, 4), (3, 4)] :=
  plane_rule 10 _ _ (by decide) glider_phase1

theorem glider_plane2 : ∀ a b, setNext [(3, 2), (1, 3), (2, 3), (2, 4), (3, 4)] a b
    ↔ (a, b) ∈ [(2, 2), (1, 3), (1, 4), (2, 4), (3, 4)] :=
  plane_rule 10 _ _ (by decide) glider_phase2

theorem glider_plane3 : ∀ a b, setNext [(2, 2), (1, 3), (1, 4), (2, 4), (3, 4)] a b
    ↔ (a, b) ∈ [(1, 3), (3, 3), (1, 4), (2, 4), (2, 5)] :=
  plane_rule 10 _ _ (by decide) glider_phase3

theorem glider_plane4 : ∀ a b, setNext [(1, 3), (3, 3), (1, 4), (2, 4), (2, 5)] a b
    ↔ (a, b) ∈ [(1, 3), (1, 4), (1, 5), (2, 5), (3, 4)] :=
  plane_rule 10 _ _ (by decide) glider_phase4

/-- Every position of a pattern inside `[1, 4] × [2, 5]`, moved by
`(x - 2, y - 2)`, lies in a grid that leaves the margins of C14 around
`(x, y)`. -/
theorem glider_box (W H x y : Int) (hx0 : 1 ≤ x) (hx1 : x ≤ W - 3) (hy0 : 1 ≤ y)
    (hy1 : y ≤ H - 4) (T : List (Int × Int))
    (hT : ∀ p ∈ T, 1 ≤ p.1 ∧ p.1 ≤ 4 ∧ 2 ≤ p.2 ∧ p.2 ≤ 5) :
    ∀ p ∈ T, InBounds W H (p.1 + (x - 2, y - 2).1) (p.2 + (x - 2, y - 2).2) := by
  intro p hp
  have := hT p hp
  unfold InBounds
  simp only
  omega

/-- C14: on a well-shaped automaton of dead cells using the Game of Life rule and
at an origin with `1 ≤ x ≤ Width - 3` and `1 ≤ y ≤ Height - 4`, `addGlider(x, y)`
followed by four calls of `CellularAutomaton.Update` returns a grid whose alive
cells are exactly the five placed cells moved by the diagonal offset `(-1, +1)`,
one cell along each axis. -/
theorem glider_translates (g : Game) (x y : Int) (hw : WellShaped g.CA)
    (hs : g.CA.Strategy = UpdateStrategy.GameOfLifeStrategy) (hd : AllDead g.CA.Grid)
    (hx0 : 1 ≤ x) (hx1 : x ≤ g.CA.Width - 3) (hy0 : 1 ≤ y) (hy1 : y ≤ g.CA.Height - 4) :
    ∃ g0 ca4, g.addGlider x y = some g0 ∧ AliveExactly g0.CA.Grid (gliderCoords x y) ∧
      g0.CA.UpdateN 4 = some ca4 ∧
      ∃ d : Int × Int, d = (-1, 1) ∧ |d.1| = 1 ∧ |d.2| = 1 ∧
        AliveExactly ca4.Grid (shift d (gliderCoords x y)) := by
  obtain ⟨g0, hrun0, hw0, hW0, hH0, hs0, ha0⟩ :=
    addGlider_alive g x y hw hs hx0 (by omega) hy0 (by omega) hd
  have hstart : AliveExactly g0.CA.Grid (shift (x - 2, y - 2) (gliderCoords 2 2)) := by
    apply aliveExactly_congr ha0
    intro a b
    rw [mem_shift]
    unfold gliderCoords
    simp only [List.mem_cons, Prod.mk.injEq, List.mem_singleton, List.not_mem_nil, or_false]
    constructor <;> rintro (h | h | h | h | h) <;> omega
  obtain ⟨ca1, hrun1, hw1, hW1, hH1, hs1, ha1⟩ :=
    Update_pattern g0.CA _ _ hw0 hs0 hstart
      (shift_rule _ _ (x - 2, y - 2) _ _ glider_plane1
        (glider_box _ _ x y hx0 (by omega) hy0 (by omega) _ (by decide)))
  obtain ⟨ca2, hrun2, hw2, hW2, hH2, hs2, ha2⟩ :=
    Update_pattern ca1 _ _ hw1 (hs1.trans hs0) ha1
      (shift_rule _ _ (x - 2, y - 2) _ _ glider_plane2
        (glider_box _ _ x y hx0 (by omega) hy0 (by omega) _ (by decide)))
  obtain ⟨ca3, hrun3, hw3, hW3, hH3, hs3, ha3⟩ :=
    Update_pattern ca2 _ _ hw2 ((hs2.trans hs1).trans hs0) ha2
      (shift_rule _ _ (x - 2, y - 2) _ _ glider_plane3
        (glider_box _ _ x y hx0 (by omega) hy0 (by omega) _ (by decide)))
  obtain ⟨ca4, hrun4, _, _, _, _, ha4⟩ :=
    Update_pattern ca3 _ _ hw3 (((hs3.trans hs2).trans hs1).trans hs0) ha3
      (shift_rule _ _ (x - 2, y - 2) _ _ glider_plane4
        (glider_box _ _ x y hx0 (by omega) hy0 (by omega) _ (by decide)))
  refine ⟨g0, ca4, hrun0, ha0, ?_, (-1, 1), rfl, by decide, by decide, ?_⟩
  · simp only [CellularAutomaton.UpdateN, hrun1, hrun2, hrun3, hrun4, Option.bind_eq_bind,
      Option.some_bind]
  · apply aliveExactly_congr ha4
    intro a b
    rw [mem_shift, mem_shift]
    unfold gliderCoords
    simp only [List.mem_cons, Prod.mk.injEq, List.mem_singleton, List.not_mem_nil, or_false]
    constructor <;> rintro (h | h | h | h | h) <;> omega

theorem glider_translates_witness :
    ∃ g0 ca4, emptyGame.addGlider 1 6 = some g0 ∧
      AliveExactly g0.CA.Grid (gliderCoords 1 6) ∧ g0.CA.UpdateN 4 = some ca4 ∧
      ∃ d : Int × Int, d = (-1, 1) ∧ |d.1| = 1 ∧ |d.2| = 1 ∧
        AliveExactly ca4.Grid (shift d (gliderCoords 1 6)) :=
  glider_translates emptyGame 1 6 (by decide) (by decide) (by decide) (by decide)
    (by decide) (by decide) (by decide)

end Conway
